import Mathlib

/-!
# go-login: the HMAC-signed token of `04_jwt_auth`

A shallow embedding of `generateJWT`, `verifyJWT` and `createSignature`
(`src/04_jwt_auth/01_jwt_demo/jwt_demo.go`; `02_jwt_server/jwt_server.go`
has the same three functions with the duration fixed to one hour) together
with the standard-library routines they call: `strings.Split`,
`base64.RawURLEncoding`, `encoding/json` on the `Header` and `Payload`
structs, `crypto/hmac` over `crypto/sha256`, and `time.Time.Unix`.

Conventions.
* A Go `string` or `[]byte` is a `List Nat`, one entry per byte; every
  routine is total on all lists, and the values it produces are below 256.
* The clock is explicit: a `time.Time` is the number of nanoseconds since the
  Unix epoch and a `time.Duration` a number of nanoseconds, both `Int`.
* An `int64` field is an `Int`; the decoder refuses literals outside the
  `int64` range, exactly where `strconv.ParseInt` does.
* The secret key is a parameter of the `...With` functions; the functions
  without the suffix use the repository's `secretKey`.
-/

namespace GoLogin

/-! ## Byte strings -/

/-- UTF-8 bytes of one code point (`utf8.AppendRune` on a valid rune). -/
def utf8Encode (c : Nat) : List Nat :=
  if c < 0x80 then [c]
  else if c < 0x800 then [0xC0 + c / 64, 0x80 + c % 64]
  else if c < 0x10000 then [0xE0 + c / 4096, 0x80 + c / 64 % 64, 0x80 + c % 64]
  else [0xF0 + c / 262144 % 8, 0x80 + c / 4096 % 64, 0x80 + c / 64 % 64, 0x80 + c % 64]

/-- The bytes of a string literal of the source, as Go stores it. -/
def str (s : String) : List Nat :=
  s.toList.flatMap (fun c => utf8Encode c.toNat)

/-- The byte `.`, the separator of the three token segments. -/
def dot : Nat := 46

/-! ## `strings.Split` with a one-byte separator -/

/-- `strings.Split(s, sep)` for a separator of one byte: the pieces between
consecutive occurrences of `sep`, one more piece than there are occurrences. -/
def split (sep : Nat) : List Nat → List (List Nat)
  | [] => [[]]
  | c :: cs =>
    if c = sep then [] :: split sep cs
    else
      match split sep cs with
      | [] => [[c]]
      | p :: ps => (c :: p) :: ps

/-! ## `base64.RawURLEncoding` -/

/-- The URL-safe alphabet `A-Z a-z 0-9 - _`, by index. -/
def b64Char (i : Nat) : Nat :=
  if i < 26 then 65 + i
  else if i < 52 then 97 + (i - 26)
  else if i < 62 then 48 + (i - 52)
  else if i = 62 then 45
  else 95

/-- The decode map of the URL-safe alphabet; `none` is the map's `0xff`. -/
def b64Val (c : Nat) : Option Nat :=
  if 65 ≤ c ∧ c ≤ 90 then some (c - 65)
  else if 97 ≤ c ∧ c ≤ 122 then some (c - 97 + 26)
  else if 48 ≤ c ∧ c ≤ 57 then some (c - 48 + 52)
  else if c = 45 then some 62
  else if c = 95 then some 63
  else none

/-- `base64.RawURLEncoding.EncodeToString`: three bytes become four
characters, a final group of one or two bytes becomes two or three, and no
padding is written. -/
def base64URLEncode : List Nat → List Nat
  | [] => []
  | [a] => [b64Char (a / 4 % 64), b64Char (a % 4 * 16)]
  | [a, b] => [b64Char (a / 4 % 64), b64Char (a % 4 * 16 + b / 16 % 16), b64Char (b % 16 * 4)]
  | a :: b :: c :: rest =>
    b64Char (a / 4 % 64) :: b64Char (a % 4 * 16 + b / 16 % 16) ::
      b64Char (b % 16 * 4 + c / 64 % 4) :: b64Char (c % 64) :: base64URLEncode rest

/-- Decoding of the quanta of `RawURLEncoding` once line breaks are dropped:
a final quantum of two or three characters is accepted (its spare low bits
are not checked, the encoding is not strict), one character alone or any
byte outside the alphabet (the padding `=` included) is corrupt input. -/
def decodeQuanta : List Nat → Option (List Nat)
  | [] => some []
  | [_] => none
  | [a, b] =>
    match b64Val a, b64Val b with
    | some x, some y => some [x * 4 + y / 16]
    | _, _ => none
  | [a, b, c] =>
    match b64Val a, b64Val b, b64Val c with
    | some x, some y, some z => some [x * 4 + y / 16, y % 16 * 16 + z / 4]
    | _, _, _ => none
  | a :: b :: c :: d :: rest =>
    match b64Val a, b64Val b, b64Val c, b64Val d with
    | some x, some y, some z, some w =>
      match decodeQuanta rest with
      | some out => some ((x * 4 + y / 16) :: (y % 16 * 16 + z / 4) :: (z % 4 * 64 + w) :: out)
      | none => none
    | _, _, _, _ => none

/-- `base64.RawURLEncoding.DecodeString`: the decoder skips `\n` and `\r`
wherever they stand, then reads quanta. -/
def base64URLDecode (s : List Nat) : Option (List Nat) :=
  decodeQuanta (s.filter (fun c => c ≠ 10 ∧ c ≠ 13))

/-! ## `crypto/sha256` and `crypto/hmac`

Words are naturals below `2^32`; every addition is reduced modulo `2^32`. -/

/-- Rotation of a 32-bit word to the right by `n` bits. -/
def rotr (n x : Nat) : Nat :=
  (x / 2 ^ n + x % 2 ^ n * 2 ^ (32 - n)) % 4294967296

/-- The SHA-256 choice function `(x AND y) XOR (NOT x AND z)`. -/
def ch (x y z : Nat) : Nat :=
  (x &&& y) ^^^ ((4294967295 - x % 4294967296) &&& z)

/-- The SHA-256 majority function. -/
def maj (x y z : Nat) : Nat :=
  (x &&& y) ^^^ (x &&& z) ^^^ (y &&& z)

/-- The function written as capital sigma, index 0. -/
def bigSigma0 (x : Nat) : Nat := rotr 2 x ^^^ rotr 13 x ^^^ rotr 22 x

/-- The function written as capital sigma, index 1. -/
def bigSigma1 (x : Nat) : Nat := rotr 6 x ^^^ rotr 11 x ^^^ rotr 25 x

/-- The function written as small sigma, index 0. -/
def smallSigma0 (x : Nat) : Nat := rotr 7 x ^^^ rotr 18 x ^^^ x / 8

/-- The function written as small sigma, index 1. -/
def smallSigma1 (x : Nat) : Nat := rotr 17 x ^^^ rotr 19 x ^^^ x / 1024

/-- The sixty-four round constants. -/
def sha256K : List Nat :=
  [
   0x428a2f98, 0x71374491, 0xb5c0fbcf, 0xe9b5dba5, 0x3956c25b, 0x59f111f1, 0x923f82a4, 0xab1c5ed5,
   0xd807aa98, 0x12835b01, 0x243185be, 0x550c7dc3, 0x72be5d74, 0x80deb1fe, 0x9bdc06a7, 0xc19bf174,
   0xe49b69c1, 0xefbe4786, 0x0fc19dc6, 0x240ca1cc, 0x2de92c6f, 0x4a7484aa, 0x5cb0a9dc, 0x76f988da,
   0x983e5152, 0xa831c66d, 0xb00327c8, 0xbf597fc7, 0xc6e00bf3, 0xd5a79147, 0x06ca6351, 0x14292967,
   0x27b70a85, 0x2e1b2138, 0x4d2c6dfc, 0x53380d13, 0x650a7354, 0x766a0abb, 0x81c2c92e, 0x92722c85,
   0xa2bfe8a1, 0xa81a664b, 0xc24b8b70, 0xc76c51a3, 0xd192e819, 0xd6990624, 0xf40e3585, 0x106aa070,
   0x19a4c116, 0x1e376c08, 0x2748774c, 0x34b0bcb5, 0x391c0cb3, 0x4ed8aa4a, 0x5b9cca4f, 0x682e6ff3,
   0x748f82ee, 0x78a5636f, 0x84c87814, 0x8cc70208, 0x90befffa, 0xa4506ceb, 0xbef9a3f7, 0xc67178f2]

/-- The eight working variables, also the chaining value. -/
structure SHA256State where
  a : Nat
  b : Nat
  c : Nat
  d : Nat
  e : Nat
  f : Nat
  g : Nat
  h : Nat
deriving DecidableEq, Repr

/-- The initial hash value. -/
def sha256Init : SHA256State :=
  { a := 0x6a09e667, b := 0xbb67ae85, c := 0x3c6ef372, d := 0xa54ff53a,
    e := 0x510e527f, f := 0x9b05688c, g := 0x1f83d9ab, h := 0x5be0cd19 }

/-- One of the sixty-four rounds, with round constant `k` and schedule word `w`. -/
def sha256Round (s : SHA256State) (kw : Nat × Nat) : SHA256State :=
  let t1 := (s.h + bigSigma1 s.e + ch s.e s.f s.g + kw.1 + kw.2) % 4294967296
  let t2 := (bigSigma0 s.a + maj s.a s.b s.c) % 4294967296
  { a := (t1 + t2) % 4294967296, b := s.a, c := s.b, d := s.c,
    e := (s.d + t1) % 4294967296, f := s.e, g := s.f, h := s.g }

/-- Big-endian 32-bit words of a block. -/
def toWords : List Nat → List Nat
  | a :: b :: c :: d :: rest => (a * 16777216 + b * 65536 + c * 256 + d) % 4294967296 :: toWords rest
  | _ => []

/-- The message schedule grown by `n` further words. -/
def extendSchedule : Nat → List Nat → List Nat
  | 0, w => w
  | n + 1, w =>
    let t := w.length
    extendSchedule n (w ++ [(smallSigma1 (w.getD (t - 2) 0) + w.getD (t - 7) 0 +
      smallSigma0 (w.getD (t - 15) 0) + w.getD (t - 16) 0) % 4294967296])

/-- The compression function on one 64-byte block. -/
def sha256Compress (s : SHA256State) (block : List Nat) : SHA256State :=
  let w := extendSchedule 48 (toWords block)
  let r := (sha256K.zip w).foldl sha256Round s
  { a := (s.a + r.a) % 4294967296, b := (s.b + r.b) % 4294967296,
    c := (s.c + r.c) % 4294967296, d := (s.d + r.d) % 4294967296,
    e := (s.e + r.e) % 4294967296, f := (s.f + r.f) % 4294967296,
    g := (s.g + r.g) % 4294967296, h := (s.h + r.h) % 4294967296 }

/-- The message followed by `0x80`, zeros up to 56 modulo 64, and the bit
length as eight big-endian bytes. -/
def sha256Pad (msg : List Nat) : List Nat :=
  let n := msg.length
  let bits := n * 8 % 18446744073709551616
  msg ++ 128 :: List.replicate ((119 - n % 64) % 64) 0 ++
    [bits / 72057594037927936 % 256, bits / 281474976710656 % 256,
     bits / 1099511627776 % 256, bits / 4294967296 % 256,
     bits / 16777216 % 256, bits / 65536 % 256, bits / 256 % 256, bits % 256]

/-- The compression function folded over at most `n` successive blocks. -/
def sha256Blocks : Nat → SHA256State → List Nat → SHA256State
  | 0, s, _ => s
  | n + 1, s, data =>
    if data = [] then s
    else sha256Blocks n (sha256Compress s (data.take 64)) (data.drop 64)

/-- Big-endian bytes of a 32-bit word. -/
def wordBytes (w : Nat) : List Nat :=
  [w / 16777216 % 256, w / 65536 % 256, w / 256 % 256, w % 256]

/-- The 32-byte digest `sha256.Sum256`. -/
def sha256 (msg : List Nat) : List Nat :=
  let padded := sha256Pad msg
  let s := sha256Blocks padded.length sha256Init padded
  wordBytes s.a ++ wordBytes s.b ++ wordBytes s.c ++ wordBytes s.d ++
    wordBytes s.e ++ wordBytes s.f ++ wordBytes s.g ++ wordBytes s.h

/-- The key of `hmac.New(sha256.New, key)` brought to the block size: a key
longer than 64 bytes is hashed first, then zeros fill it up to 64 bytes. -/
def hmacKeyBlock (key : List Nat) : List Nat :=
  let k := if 64 < key.length then sha256 key else key
  k ++ List.replicate (64 - k.length) 0

/-- The tag `H((K xor opad) ++ H((K xor ipad) ++ msg))` that `h.Write(msg)`
followed by `h.Sum(nil)` returns. -/
def hmacSHA256 (key msg : List Nat) : List Nat :=
  let k := hmacKeyBlock key
  sha256 (k.map (fun b => b ^^^ 0x5c) ++ sha256 (k.map (fun b => b ^^^ 0x36) ++ msg))

/-! ## UTF-8 as `unicode/utf8` validates it -/

/-- A continuation byte `10xxxxxx`. -/
def isCont (b : Nat) : Bool := 0x80 ≤ b && b ≤ 0xBF

/-- A well-formed two-byte encoding (lead `C2..DF`). -/
def validRune2 (b0 b1 : Nat) : Bool := 0xC2 ≤ b0 && b0 ≤ 0xDF && isCont b1

/-- A well-formed three-byte encoding: no overlong form, no surrogate. -/
def validRune3 (b0 b1 b2 : Nat) : Bool :=
  ((b0 == 0xE0 && 0xA0 ≤ b1 && b1 ≤ 0xBF) ||
   (0xE1 ≤ b0 && b0 ≤ 0xEC && isCont b1) ||
   (b0 == 0xED && 0x80 ≤ b1 && b1 ≤ 0x9F) ||
   (0xEE ≤ b0 && b0 ≤ 0xEF && isCont b1)) && isCont b2

/-- A well-formed four-byte encoding: no overlong form, at most `U+10FFFF`. -/
def validRune4 (b0 b1 b2 b3 : Nat) : Bool :=
  ((b0 == 0xF0 && 0x90 ≤ b1 && b1 ≤ 0xBF) ||
   (0xF1 ≤ b0 && b0 ≤ 0xF3 && isCont b1) ||
   (b0 == 0xF4 && 0x80 ≤ b1 && b1 ≤ 0x8F)) && isCont b2 && isCont b3

/-- Width of the rune that `utf8.DecodeRune` reads at the head of a string
whose first byte is not ASCII: 2, 3 or 4 for a well-formed encoding, and 0
where `DecodeRune` reports `(RuneError, 1)`. -/
def runeLen : List Nat → Nat
  | b0 :: b1 :: b2 :: b3 :: _ =>
    if validRune2 b0 b1 then 2 else if validRune3 b0 b1 b2 then 3
    else if validRune4 b0 b1 b2 b3 then 4 else 0
  | [b0, b1, b2] =>
    if validRune2 b0 b1 then 2 else if validRune3 b0 b1 b2 then 3 else 0
  | [b0, b1] => if validRune2 b0 b1 then 2 else 0
  | _ => 0

/-- The encoding `EF BF BD` of `U+FFFD`, the replacement character. -/
def replacement : List Nat := [0xEF, 0xBF, 0xBD]

/-- The string with every byte that is not part of a well-formed encoding
replaced by `U+FFFD`: what a string becomes on its way through
`json.Marshal` and back. -/
def coerceUTF8 : List Nat → List Nat
  | [] => []
  | b0 :: rest =>
    let tail := coerceUTF8 rest
    if b0 < 0x80 then b0 :: tail
    else
      match runeLen (b0 :: rest), rest with
      | 2, b1 :: r => b0 :: b1 :: coerceUTF8 r
      | 3, b1 :: b2 :: r => b0 :: b1 :: b2 :: coerceUTF8 r
      | 4, b1 :: b2 :: b3 :: r => b0 :: b1 :: b2 :: b3 :: coerceUTF8 r
      | _, _ => replacement ++ tail

/-- `utf8.ValidString`. -/
def validUTF8 : List Nat → Bool
  | [] => true
  | b0 :: rest =>
    if b0 < 0x80 then validUTF8 rest
    else
      match runeLen (b0 :: rest), rest with
      | 2, _ :: r => validUTF8 r
      | 3, _ :: _ :: r => validUTF8 r
      | 4, _ :: _ :: _ :: r => validUTF8 r
      | _, _ => false

/-! ## `encoding/json`: `Marshal` of the two structs -/

/-- The lower-case hexadecimal digit of a value below 16. -/
def hexDigit (n : Nat) : Nat := if n < 10 then 48 + n else 87 + n

/-- What the encoder writes for one ASCII byte of a string, HTML escaping
on (the default of `json.Marshal`): `"` and `\` get a backslash, the control
characters `\b \f \n \r \t` their short escape, every other control
character and `<`, `>`, `&` the form `\u00XX`, and the rest stands as it is. -/
def escapeASCII (b : Nat) : List Nat :=
  if b = 34 ∨ b = 92 then [92, b]
  else if b = 8 then [92, 98]
  else if b = 12 then [92, 102]
  else if b = 10 then [92, 110]
  else if b = 13 then [92, 114]
  else if b = 9 then [92, 116]
  else if b < 32 ∨ b = 60 ∨ b = 62 ∨ b = 38 then
    [92, 117, 48, 48, hexDigit (b / 16), hexDigit (b % 16)]
  else [b]

/-- The characters the encoder writes between the quotes of a string: ASCII
by `escapeASCII`, a well-formed multi-byte rune copied (`U+2028` and
`U+2029` escaped), a byte that starts no well-formed rune as `�`. -/
def appendStringBody : List Nat → List Nat
  | [] => []
  | b0 :: rest =>
    let tail := appendStringBody rest
    if b0 < 0x80 then escapeASCII b0 ++ tail
    else
      match runeLen (b0 :: rest), rest with
      | 2, b1 :: r => b0 :: b1 :: appendStringBody r
      | 3, b1 :: b2 :: r =>
        (if b0 = 0xE2 ∧ b1 = 0x80 ∧ (b2 = 0xA8 ∨ b2 = 0xA9)
          then [92, 117, 50, 48, 50, hexDigit (b2 % 16)]
          else [b0, b1, b2]) ++ appendStringBody r
      | 4, b1 :: b2 :: b3 :: r => b0 :: b1 :: b2 :: b3 :: appendStringBody r
      | _, _ => [92, 117, 102, 102, 102, 100] ++ tail

/-- A JSON string literal, quotes included. -/
def appendString (s : List Nat) : List Nat :=
  34 :: appendStringBody s ++ [34]

/-- Decimal digits of `n`, most significant first, for `n` below `10 ^ fuel`. -/
def decDigits : Nat → Nat → List Nat
  | 0, _ => []
  | fuel + 1, n => if n < 10 then [48 + n] else decDigits fuel (n / 10) ++ [48 + n % 10]

/-- Decimal rendering of a natural number. -/
def formatNat (n : Nat) : List Nat := decDigits (n + 1) n

/-- `strconv.AppendInt(_, n, 10)`, the encoder's rendering of an `int64`. -/
def formatInt (n : Int) : List Nat :=
  if n < 0 then 45 :: formatNat n.natAbs else formatNat n.natAbs

/-- The struct `Header`. -/
structure Header where
  Alg : List Nat
  Typ : List Nat
deriving DecidableEq, Repr

/-- The struct `Payload`, its fields in the order of the declaration. -/
structure Payload where
  Username : List Nat
  Exp : Int
  Iat : Int
deriving DecidableEq, Repr

/-- `json.Marshal(header)`: the fields under their tags `alg`, `typ`, in the
order of the struct. -/
def marshalHeader (h : Header) : List Nat :=
  str "\x7b\"alg\":" ++ appendString h.Alg ++ str ",\"typ\":" ++ appendString h.Typ ++ str "\x7d"

/-- `json.Marshal(payload)`: the fields under their tags `username`, `exp`,
`iat`, in the order of the struct. -/
def marshalPayload (p : Payload) : List Nat :=
  str "\x7b\"username\":" ++ appendString p.Username ++ str ",\"exp\":" ++ formatInt p.Exp ++
    str ",\"iat\":" ++ formatInt p.Iat ++ str "\x7d"

/-! ## `encoding/json`: the scanner that `Unmarshal` runs first

`checkValid` feeds the input to a state machine one byte at a time; the
machine below follows it state for state and keeps, beside the stack of open
containers, the values read so far. -/

/-- A JSON value as the decoder sees it: a number by its literal, a string
already unquoted. -/
inductive JSON where
  | null
  | bool (b : Bool)
  | num (lit : List Nat)
  | str (s : List Nat)
  | arr (elems : List JSON)
  | obj (members : List (List Nat × JSON))

/-- An open container: an array with its elements so far, or an object with
its members so far and the key that waits for its value. -/
inductive Frame where
  | arr (elems : List JSON)
  | obj (members : List (List Nat × JSON)) (key : Option (List Nat))

/-- Where the scanner stands inside a number (`stateNeg`, `state0`, `state1`,
`stateDot`, `stateDot0`, `stateE`, `stateESign`, `stateE0`). -/
inductive NumState where
  | neg
  | zero
  | int
  | dot
  | frac
  | exp
  | expSign
  | expInt
deriving DecidableEq

/-- The step function the scanner is in. -/
inductive Mode where
  | beginValue (orEmpty : Bool)
  | beginString (orEmpty : Bool)
  | endValue
  | inString (raw : List Nat)
  | inStringEsc (raw : List Nat)
  | inStringEscU (raw : List Nat) (more : Nat)
  | inNumber (lit : List Nat) (st : NumState)
  | inLiteral (rest : List Nat) (v : JSON)
  | failed

/-- The scanner: its step function, the open containers (innermost first)
and the finished top-level value. -/
structure Scanner where
  mode : Mode
  stack : List Frame
  top : Option JSON

/-- The nesting depth past which the scanner gives up. -/
def maxNestingDepth : Nat := 10000

/-- The four bytes JSON counts as white space. -/
def isSpace (c : Nat) : Bool := c == 32 || c == 9 || c == 13 || c == 10

/-- A decimal digit. -/
def isDigit (c : Nat) : Bool := 48 ≤ c && c ≤ 57

/-- A hexadecimal digit, either case. -/
def isHex (c : Nat) : Bool :=
  (48 ≤ c && c ≤ 57) || (97 ≤ c && c ≤ 102) || (65 ≤ c && c ≤ 70)

/-- Value of a hexadecimal digit. -/
def hexVal (c : Nat) : Nat :=
  if 48 ≤ c ∧ c ≤ 57 then c - 48
  else if 97 ≤ c ∧ c ≤ 102 then c - 87
  else if 65 ≤ c ∧ c ≤ 70 then c - 55
  else 0

/-- Value of four hexadecimal digits (`getu4`). -/
def hex4 (a b c d : Nat) : Nat :=
  ((hexVal a * 16 + hexVal b) * 16 + hexVal c) * 16 + hexVal d

/-- The byte a one-letter escape stands for. -/
def unescape (c : Nat) : Nat :=
  if c = 98 then 8
  else if c = 102 then 12
  else if c = 110 then 10
  else if c = 114 then 13
  else if c = 116 then 9
  else c

/-- The low surrogate that a second `\uXXXX` escape at the head of `r`
supplies to the high surrogate `rr`, joined with it into one code point;
`none` where `utf16.DecodeRune` has no valid pair. -/
def surrogatePair (rr : Nat) (r : List Nat) : Option Nat :=
  match r with
  | e0 :: e1 :: g1 :: g2 :: g3 :: g4 :: _ =>
    if e0 = 92 ∧ e1 = 117 ∧ isHex g1 ∧ isHex g2 ∧ isHex g3 ∧ isHex g4 ∧
        rr < 0xDC00 ∧ 0xDC00 ≤ hex4 g1 g2 g3 g4 ∧ hex4 g1 g2 g3 g4 < 0xE000 then
      some ((rr - 0xD800) * 1024 + (hex4 g1 g2 g3 g4 - 0xDC00) + 0x10000)
    else none
  | _ => none

/-- One round of the loop of `unquoteBytes` at the head of a non-empty rest
of a string literal: the bytes it writes and the number of bytes it reads.
An escape is resolved, a `\u` escape of a surrogate is joined with a
following low surrogate or becomes `U+FFFD`, an ASCII byte or a well-formed
rune is copied, and a byte that starts no well-formed rune becomes `U+FFFD`. -/
def unquoteStep (b0 : Nat) (rest : List Nat) : List Nat × Nat :=
  if b0 = 92 then
    match rest with
    | [] => ([], 1)
    | c :: r1 =>
      if c = 117 then
        match r1 with
        | h1 :: h2 :: h3 :: h4 :: r =>
          if 0xD800 ≤ hex4 h1 h2 h3 h4 ∧ hex4 h1 h2 h3 h4 < 0xE000 then
            match surrogatePair (hex4 h1 h2 h3 h4) r with
            | some dec => (utf8Encode dec, 12)
            | none => (replacement, 6)
          else (utf8Encode (hex4 h1 h2 h3 h4), 6)
        | _ => ([], 2)
      else ([unescape c], 2)
  else if b0 < 0x80 then ([b0], 1)
  else
    match runeLen (b0 :: rest) with
    | 0 => (replacement, 1)
    | n => ((b0 :: rest).take n, n)

/-- The loop of `unquoteBytes`; `skip` counts the bytes that the last round
has read beyond the one it stood on. -/
def unquoteFrom : Nat → List Nat → List Nat
  | _, [] => []
  | skip + 1, _ :: rest => unquoteFrom skip rest
  | 0, b0 :: rest => (unquoteStep b0 rest).1 ++ unquoteFrom ((unquoteStep b0 rest).2 - 1) rest

/-- `unquoteBytes` on the inside of a string literal the scanner has
accepted. -/
def unquote (s : List Nat) : List Nat := unquoteFrom 0 s

/-- A finished value handed to the innermost open container: it becomes the
top-level value, the next element of an array, the value of the waiting key,
or (a string where a key is due) the waiting key. -/
def deliver (v : JSON) : List Frame → Scanner
  | [] => { mode := .endValue, stack := [], top := some v }
  | .arr elems :: st => { mode := .endValue, stack := .arr (elems ++ [v]) :: st, top := none }
  | .obj ms (some k) :: st =>
    { mode := .endValue, stack := .obj (ms ++ [(k, v)]) none :: st, top := none }
  | .obj ms none :: st =>
    match v with
    | .str k => { mode := .endValue, stack := .obj ms (some k) :: st, top := none }
    | _ => { mode := .failed, stack := .obj ms none :: st, top := none }

/-- The scanner after a value (`stateEndValue`, and `stateEndTop` once the
stack is empty): white space is skipped; after a key a colon, after an
element a comma or the closing bracket of the container. -/
def stepEndValue (stack : List Frame) (top : Option JSON) (c : Nat) : Scanner :=
  if isSpace c then { mode := .endValue, stack := stack, top := top }
  else
    match stack with
    | [] => { mode := .failed, stack := stack, top := top }
    | .arr elems :: st =>
      if c = 44 then { mode := .beginValue false, stack := stack, top := top }
      else if c = 93 then deliver (.arr elems) st
      else { mode := .failed, stack := stack, top := top }
    | .obj _ (some _) :: _ =>
      if c = 58 then { mode := .beginValue false, stack := stack, top := top }
      else { mode := .failed, stack := stack, top := top }
    | .obj ms none :: st =>
      if c = 44 then { mode := .beginString false, stack := stack, top := top }
      else if c = 125 then deliver (.obj ms) st
      else { mode := .failed, stack := stack, top := top }

/-- One byte inside a number; a byte that cannot continue a complete number
ends it and is then read by `stepEndValue`. -/
def stepNumber (stack : List Frame) (lit : List Nat) (st : NumState) (c : Nat) : Scanner :=
  let go (st1 : NumState) : Scanner := { mode := .inNumber (lit ++ [c]) st1, stack := stack, top := none }
  let bad : Scanner := { mode := .failed, stack := stack, top := none }
  let done : Scanner := stepEndValue (deliver (.num lit) stack).stack (deliver (.num lit) stack).top c
  let finish : Scanner :=
    match (deliver (.num lit) stack).mode with
    | .endValue => done
    | _ => bad
  match st with
  | .neg => if c = 48 then go .zero else if isDigit c then go .int else bad
  | .int =>
    if isDigit c then go .int
    else if c = 46 then go .dot else if c = 101 ∨ c = 69 then go .exp else finish
  | .zero => if c = 46 then go .dot else if c = 101 ∨ c = 69 then go .exp else finish
  | .dot => if isDigit c then go .frac else bad
  | .frac => if isDigit c then go .frac else if c = 101 ∨ c = 69 then go .exp else finish
  | .exp => if c = 43 ∨ c = 45 then go .expSign else if isDigit c then go .expInt else bad
  | .expSign => if isDigit c then go .expInt else bad
  | .expInt => if isDigit c then go .expInt else finish

/-- The scanner where a value is due (`stateBeginValue`, and
`stateBeginValueOrEmpty` just after `[`). -/
def stepBeginValue (stack : List Frame) (orEmpty : Bool) (c : Nat) : Scanner :=
  let bad : Scanner := { mode := .failed, stack := stack, top := none }
  if isSpace c then { mode := .beginValue orEmpty, stack := stack, top := none }
  else if c = 123 then
    if stack.length + 1 ≤ maxNestingDepth then
      { mode := .beginString true, stack := .obj [] none :: stack, top := none }
    else bad
  else if c = 91 then
    if stack.length + 1 ≤ maxNestingDepth then
      { mode := .beginValue true, stack := .arr [] :: stack, top := none }
    else bad
  else if c = 34 then { mode := .inString [], stack := stack, top := none }
  else if c = 45 then { mode := .inNumber [c] .neg, stack := stack, top := none }
  else if c = 48 then { mode := .inNumber [c] .zero, stack := stack, top := none }
  else if isDigit c then { mode := .inNumber [c] .int, stack := stack, top := none }
  else if c = 116 then { mode := .inLiteral [114, 117, 101] (.bool true), stack := stack, top := none }
  else if c = 102 then
    { mode := .inLiteral [97, 108, 115, 101] (.bool false), stack := stack, top := none }
  else if c = 110 then { mode := .inLiteral [117, 108, 108] .null, stack := stack, top := none }
  else if c = 93 ∧ orEmpty = true then stepEndValue stack none c
  else bad

/-- One byte through the scanner. -/
def step (s : Scanner) (c : Nat) : Scanner :=
  let bad : Scanner := { mode := .failed, stack := s.stack, top := s.top }
  match s.mode with
  | .failed => s
  | .beginValue orEmpty => stepBeginValue s.stack orEmpty c
  | .beginString orEmpty =>
    if isSpace c then s
    else if c = 34 then { mode := .inString [], stack := s.stack, top := none }
    else if c = 125 ∧ orEmpty = true then stepEndValue s.stack none c
    else bad
  | .endValue => stepEndValue s.stack s.top c
  | .inString raw =>
    if c = 34 then deliver (.str (unquote raw)) s.stack
    else if c = 92 then { mode := .inStringEsc (raw ++ [c]), stack := s.stack, top := none }
    else if c < 32 then bad
    else { mode := .inString (raw ++ [c]), stack := s.stack, top := none }
  | .inStringEsc raw =>
    if c = 98 ∨ c = 102 ∨ c = 110 ∨ c = 114 ∨ c = 116 ∨ c = 92 ∨ c = 47 ∨ c = 34 then
      { mode := .inString (raw ++ [c]), stack := s.stack, top := none }
    else if c = 117 then { mode := .inStringEscU (raw ++ [c]) 3, stack := s.stack, top := none }
    else bad
  | .inStringEscU raw more =>
    if isHex c then
      match more with
      | 0 => { mode := .inString (raw ++ [c]), stack := s.stack, top := none }
      | m + 1 => { mode := .inStringEscU (raw ++ [c]) m, stack := s.stack, top := none }
    else bad
  | .inNumber lit st => stepNumber s.stack lit st c
  | .inLiteral rest v =>
    match rest with
    | [] => bad
    | [x] => if c = x then deliver v s.stack else bad
    | x :: more => if c = x then { mode := .inLiteral more v, stack := s.stack, top := none } else bad

/-- The scanner before the first byte. -/
def scanStart : Scanner := { mode := .beginValue false, stack := [], top := none }

/-- The value a whole JSON text holds, or `none` where `checkValid` reports a
malformed text. At the end of the input the scanner is stepped once more
with a space, which finishes a number that runs to the last byte. -/
def scanJSON (data : List Nat) : Option JSON :=
  let s := step (data.foldl step scanStart) 32
  match s.mode, s.stack with
  | .endValue, [] => s.top
  | _, _ => none

/-! ## `encoding/json`: `Unmarshal` into `Payload` -/

/-- Why `json.Unmarshal` failed: the text is not JSON (`*SyntaxError`), or a
value does not fit the Go type it is stored into (`*UnmarshalTypeError`). -/
inductive JSONError where
  | malformed
  | mistyped
deriving DecidableEq, Repr

/-- The folded form under which the decoder looks a key up when no field has
exactly that name: ASCII letters in upper case, and the two letters outside
ASCII whose case orbit reaches ASCII (`U+017F` to `S`, `U+212A` to `K`). Any
other byte outside ASCII is kept as it is; the decoder would write the
folded rune there, which is not ASCII either, so a comparison with a folded
field name comes out the same. -/
def foldName : List Nat → List Nat
  | [] => []
  | c :: rest =>
    let tail := foldName rest
    if 97 ≤ c ∧ c ≤ 122 then (c - 32) :: tail
    else
      match rest with
      | c1 :: r1 =>
        let tail1 := foldName r1
        if c = 0xC5 ∧ c1 = 0xBF then 83 :: tail1
        else
          match r1 with
          | c2 :: r2 => if c = 0xE2 ∧ c1 = 0x84 ∧ c2 = 0xAA then 75 :: foldName r2 else c :: tail
          | [] => c :: tail
      | [] => c :: tail

/-- The number a run of decimal digits stands for. -/
def digitsValue (ds : List Nat) : Nat :=
  ds.foldl (fun acc d => acc * 10 + (d - 48)) 0

/-- `strconv.ParseInt(lit, 10, 64)` on a JSON number literal: an optional
minus sign and digits only (a fraction or an exponent is refused), and the
value must be an `int64`. -/
def parseInt64 (lit : List Nat) : Option Int :=
  match lit with
  | [] => none
  | c :: ds =>
    if c = 45 then
      if ds ≠ [] ∧ ds.all isDigit ∧ digitsValue ds ≤ 9223372036854775808 then
        some (-(digitsValue ds : Int))
      else none
    else if (c :: ds).all isDigit ∧ digitsValue (c :: ds) ≤ 9223372036854775807 then
      some (digitsValue (c :: ds) : Int)
    else none

/-- One member of the object stored into the struct: the key selects a field
by its tag, case folded; a key that names no field is skipped; `null` leaves
the field as it is; a string goes into `Username` and an integer literal into
`Exp` or `Iat`, and any other value for a field is a type error. -/
def storeField (p : Payload) (kv : List Nat × JSON) : Option Payload :=
  if foldName kv.1 = str "USERNAME" then
    match kv.2 with
    | .str s => some { p with Username := s }
    | .null => some p
    | _ => none
  else if foldName kv.1 = str "EXP" then
    match kv.2 with
    | .num lit => (parseInt64 lit).map (fun n => { p with Exp := n })
    | .null => some p
    | _ => none
  else if foldName kv.1 = str "IAT" then
    match kv.2 with
    | .num lit => (parseInt64 lit).map (fun n => { p with Iat := n })
    | .null => some p
    | _ => none
  else some p

/-- The members of an object stored one after the other, a later member
overwriting an earlier one of the same field. -/
def storeMembers (p : Payload) : List (List Nat × JSON) → Option Payload
  | [] => some p
  | kv :: rest =>
    match storeField p kv with
    | some q => storeMembers q rest
    | none => none

/-- The zero value of `Payload`, what `var payload Payload` declares. -/
def zeroPayload : Payload := { Username := [], Exp := 0, Iat := 0 }

/-- `json.Unmarshal(data, &payload)` on a zero `payload`: an object fills the
fields it names, `null` changes nothing, any other value is a type error. -/
def unmarshalPayload (data : List Nat) : Except JSONError Payload :=
  match scanJSON data with
  | none => .error .malformed
  | some .null => .ok zeroPayload
  | some (.obj ms) =>
    match storeMembers zeroPayload ms with
    | some p => .ok p
    | none => .error .mistyped
  | some _ => .error .mistyped

/-- Equality of results is decidable, so that a result can be computed and
compared. -/
instance instDecidableEqExcept {ε α : Type} [DecidableEq ε] [DecidableEq α] :
    DecidableEq (Except ε α)
  | .ok a, .ok b =>
    if h : a = b then isTrue (by rw [h]) else isFalse (fun e => h (by cases e; rfl))
  | .error a, .error b =>
    if h : a = b then isTrue (by rw [h]) else isFalse (fun e => h (by cases e; rfl))
  | .ok _, .error _ => isFalse (fun e => by cases e)
  | .error _, .ok _ => isFalse (fun e => by cases e)

/-! ## The token: `createSignature`, `generateJWT`, `verifyJWT` -/

/-- The error values of `verifyJWT`, one for each `fmt.Errorf` of the
function, in the order of the source: the token has not three parts; the
signature differs; the payload is not base64url; the payload is not the JSON
of a `Payload`; the token has expired. -/
inductive JWTError where
  | invalidFormat
  | signatureMismatch
  | payloadDecode
  | payloadParse (cause : JSONError)
  | expired
deriving DecidableEq, Repr

/-- The variable `secretKey`. -/
def secretKey : List Nat := str "my-super-secret-key-12345"

/-- The function `createSignature` with the key as a parameter: the
base64url form of the HMAC-SHA256 tag of `header + "." + payload`. -/
def createSignatureWith (key header payload : List Nat) : List Nat :=
  let message := header ++ dot :: payload
  base64URLEncode (hmacSHA256 key message)

/-- The function `createSignature`. -/
def createSignature (header payload : List Nat) : List Nat :=
  createSignatureWith secretKey header payload

/-- `Time.Unix`: whole seconds since the epoch, rounded down. -/
def unix (t : Int) : Int := t / 1000000000

/-- The function `generateJWT` with the key and the reading of the clock as
parameters. The source returns a nil error on every path. -/
def generateJWTWith (key : List Nat) (now : Int) (username : List Nat) (duration : Int) :
    Except JWTError (List Nat) :=
  let header : Header := { Alg := str "HS256", Typ := str "JWT" }
  let headerJSON := marshalHeader header
  let headerEncoded := base64URLEncode headerJSON
  let payload : Payload :=
    { Username := username, Exp := unix (now + duration), Iat := unix now }
  let payloadJSON := marshalPayload payload
  let payloadEncoded := base64URLEncode payloadJSON
  let signature := createSignatureWith key headerEncoded payloadEncoded
  let jwt := headerEncoded ++ dot :: payloadEncoded ++ dot :: signature
  .ok jwt

/-- The function `generateJWT` of the demo. -/
def generateJWT (now : Int) (username : List Nat) (duration : Int) : Except JWTError (List Nat) :=
  generateJWTWith secretKey now username duration

/-- The function `verifyJWT` with the key and the reading of the clock as
parameters. -/
def verifyJWTWith (key : List Nat) (now : Int) (token : List Nat) : Except JWTError Payload :=
  match split dot token with
  | [headerEncoded, payloadEncoded, signatureReceived] =>
    let signatureExpected := createSignatureWith key headerEncoded payloadEncoded
    if signatureReceived ≠ signatureExpected then .error .signatureMismatch
    else
      match base64URLDecode payloadEncoded with
      | none => .error .payloadDecode
      | some payloadJSON =>
        match unmarshalPayload payloadJSON with
        | .error e => .error (.payloadParse e)
        | .ok payload =>
          if unix now > payload.Exp then .error .expired
          else .ok payload
  | _ => .error .invalidFormat

/-- The function `verifyJWT`. -/
def verifyJWT (now : Int) (token : List Nat) : Except JWTError Payload :=
  verifyJWTWith secretKey now token

/-- The values of an `int64`, the type of `Exp` and `Iat` and of what
`Time.Unix` returns. -/
def isInt64 (n : Int) : Prop := -9223372036854775808 ≤ n ∧ n ≤ 9223372036854775807

/-- The range check is decidable. -/
instance (n : Int) : Decidable (isInt64 n) := by
  unfold isInt64
  infer_instance

/-- The local `headerEncoded` of `generateJWT`: the first segment of every
token. -/
def headerEncoded : List Nat :=
  base64URLEncode (marshalHeader { Alg := str "HS256", Typ := str "JWT" })

/-- The local `payload` of `generateJWT`: the claims of the token issued
at `now` for `username` with the given duration. -/
def issuedPayload (now : Int) (username : List Nat) (duration : Int) : Payload :=
  { Username := username, Exp := unix (now + duration), Iat := unix now }

/-- The local `payloadEncoded` of `generateJWT`: the second segment of the
token. -/
def payloadEncoded (now : Int) (username : List Nat) (duration : Int) : List Nat :=
  base64URLEncode (marshalPayload (issuedPayload now username duration))

/-- One second as a `time.Duration`. -/
def second : Int := 1000000000

/-- A byte of the URL-safe alphabet. -/
def isB64Char (c : Nat) : Bool := (b64Val c).isSome

/-- A valid padding-free base64url string in the words of the
specification, after RFC 4648: bytes of the URL-safe alphabet only, and a
length that three-byte groups can produce, so not one more than a multiple
of four. It is stated apart from the decoder, to be compared with it. -/
def isRawBase64URL (s : List Nat) : Bool := s.all isB64Char && s.length % 4 != 1

/-! ## `02_jwt_server`: the token on the wire -/

namespace JWTServer

/-- The constant `tokenExpiration`, one hour. -/
def tokenExpiration : Int := 3600 * second

/-- The function `generateJWT` of the server: the one of the demo with the
duration fixed to `tokenExpiration`. -/
def generateJWT (now : Int) (username : List Nat) : Except JWTError (List Nat) :=
  generateJWTWith secretKey now username tokenExpiration

/-- The two error values of `extractToken`: no `Authorization` header, and a
header that is not `Bearer <token>`. -/
inductive HeaderError where
  | missing
  | invalidFormat
deriving DecidableEq, Repr

/-- The function `extractToken`, on the value that
`r.Header.Get("Authorization")` returns (empty when the header is absent). -/
def extractToken (authHeader : List Nat) : Except HeaderError (List Nat) :=
  if authHeader = [] then .error .missing
  else
    match split 32 authHeader with
    | [scheme, token] => if scheme ≠ str "Bearer" then .error .invalidFormat else .ok token
    | _ => .error .invalidFormat

end JWTServer

/-! ## `03_session_auth/02_session_server`: the session store

A Go map from session id to session is a function from ids to optional
sessions; a `time.Time` is again a number of nanoseconds. -/

/-- The struct `Session`. -/
structure Session where
  ID : List Nat
  Username : List Nat
  CreatedAt : Int
  ExpiresAt : Int
deriving DecidableEq, Repr

/-- The struct `SessionStore`. -/
structure SessionStore where
  sessions : List Nat → Option Session

/-- The function `NewSessionStore`. -/
def NewSessionStore : SessionStore := { sessions := fun _ => none }

/-- The error values of the session store: `rand.Read` failed; no session
under the id; the session has expired. -/
inductive SessionError where
  | randomSource
  | notFound
  | expired
deriving DecidableEq, Repr

/-- `base64.URLEncoding.EncodeToString`: the URL-safe alphabet with `=`
filling the last group up to four characters. -/
def base64URLEncodePadded (bs : List Nat) : List Nat :=
  base64URLEncode bs ++ List.replicate ((3 - bs.length % 3) % 3) 61

/-- The function `generateSessionID`; `random` is what `rand.Read` put into
the 32 bytes, or `none` where it returned an error. -/
def generateSessionID (random : Option (List Nat)) : Except SessionError (List Nat) :=
  match random with
  | none => .error .randomSource
  | some b => .ok (base64URLEncodePadded b)

/-- Twenty-four hours as a `time.Duration`. -/
def sessionLifetime : Int := 24 * (3600 * second)

/-- The method `SessionStore.Create`. The source reads the clock twice, for
`CreatedAt` and then for `ExpiresAt`; `created` and `now` are the two
readings. -/
def SessionStore.Create (s : SessionStore) (random : Option (List Nat)) (username : List Nat)
    (created now : Int) : SessionStore × Except SessionError Session :=
  match generateSessionID random with
  | .error e => (s, .error e)
  | .ok id =>
    let session : Session :=
      { ID := id, Username := username, CreatedAt := created, ExpiresAt := now + sessionLifetime }
    ({ sessions := fun k => if k = id then some session else s.sessions k }, .ok session)

/-- The method `SessionStore.Delete`. -/
def SessionStore.Delete (s : SessionStore) (id : List Nat) : SessionStore :=
  { sessions := fun k => if k = id then none else s.sessions k }

/-- The method `SessionStore.Get`, with the reading of the clock as a
parameter: `time.Now().After(session.ExpiresAt)` is `now > ExpiresAt`. -/
def SessionStore.Get (s : SessionStore) (id : List Nat) (now : Int) :
    SessionStore × Except SessionError Session :=
  match s.sessions id with
  | none => (s, .error .notFound)
  | some session =>
    if now > session.ExpiresAt then (s.Delete id, .error .expired)
    else (s, .ok session)

/-- The slice expression `s[:n]` of a Go string: the first `n` bytes, and a
run-time panic (`none`) where `n` exceeds the length. -/
def slicePrefix (s : List Nat) (n : Nat) : Option (List Nat) :=
  if n ≤ s.length then some (s.take n) else none

/-- What a handler leaves behind: a response with its status, the two fields
of `Response` and whether a cookie-clearing `Set-Cookie` header was added;
or a panic, which `net/http` recovers by dropping the connection without a
response. -/
inductive HandlerResult where
  | response (status : Nat) (success : Bool) (message : List Nat) (clearsCookie : Bool)
  | panicked
deriving DecidableEq, Repr

/-- The method `Server.HandleLogout`, on the request method and the value of
the cookie `session_id` (`none` where `r.Cookie` returns `ErrNoCookie`),
with the session store as state. -/
def HandleLogout (sessions : SessionStore) (method : List Nat) (cookie : Option (List Nat)) :
    SessionStore × HandlerResult :=
  if method ≠ str "POST" then
    (sessions, .response 405 false (str "POSTメソッドを使用してください") false)
  else
    match cookie with
    | none => (sessions, .response 200 true (str "既にログアウトしています") false)
    | some value =>
      let sessions1 := sessions.Delete value
      match slicePrefix value 16 with
      | none => (sessions1, .panicked)
      | some _ => (sessions1, .response 200 true (str "ログアウトしました") true)

end GoLogin

namespace GoLogin

/-! ## Facts about `split` -/

theorem split_ne_nil (sep : Nat) (s : List Nat) : split sep s ≠ [] := by
  cases s with
  | nil => simp [split]
  | cons c cs =>
    simp only [split]
    split_ifs
    · simp
    · cases split sep cs <;> simp

theorem split_length (sep : Nat) (s : List Nat) :
    (split sep s).length = s.count sep + 1 := by
  induction s with
  | nil => simp [split]
  | cons c cs ih =>
    simp only [split]
    by_cases h : c = sep
    · subst h
      simp [ih]
    · have hne := split_ne_nil sep cs
      rw [if_neg h, List.count_cons_of_ne (Ne.symm h)]
      cases hs : split sep cs with
      | nil => exact absurd hs hne
      | cons p ps => rw [hs] at ih; simpa using ih

theorem split_of_not_mem (sep : Nat) (s : List Nat) (h : sep ∉ s) : split sep s = [s] := by
  induction s with
  | nil => simp [split]
  | cons c cs ih =>
    have hc : c ≠ sep := fun e => h (by simp [e])
    have hcs : sep ∉ cs := fun e => h (by simp [e])
    simp [split, hc, ih hcs]

theorem split_append (sep : Nat) (a rest : List Nat) (h : sep ∉ a) :
    split sep (a ++ sep :: rest) = a :: split sep rest := by
  induction a with
  | nil => simp [split]
  | cons c cs ih =>
    have hc : c ≠ sep := fun e => h (by simp [e])
    have hcs : sep ∉ cs := fun e => h (by simp [e])
    simp [split, hc, ih hcs]

theorem split_three (sep : Nat) (a b c : List Nat) (ha : sep ∉ a) (hb : sep ∉ b) (hc : sep ∉ c) :
    split sep (a ++ sep :: b ++ sep :: c) = [a, b, c] := by
  rw [List.append_assoc, List.cons_append, split_append sep a _ ha, split_append sep b _ hb,
    split_of_not_mem sep c hc]

end GoLogin

namespace GoLogin

/-! ## Facts about `base64.RawURLEncoding` -/

theorem b64Val_b64Char (i : Nat) (h : i < 64) : b64Val (b64Char i) = some i := by
  unfold b64Char b64Val
  split_ifs <;> first | omega | (congr 1; omega)

/-- Bytes of the URL-safe alphabet. -/
theorem b64Char_alphabet (i : Nat) :
    (65 ≤ b64Char i ∧ b64Char i ≤ 90) ∨ (97 ≤ b64Char i ∧ b64Char i ≤ 122) ∨
      (48 ≤ b64Char i ∧ b64Char i ≤ 57) ∨ b64Char i = 45 ∨ b64Char i = 95 := by
  unfold b64Char
  split_ifs <;> omega

theorem base64URLEncode_alphabet (bs : List Nat) :
    ∀ c ∈ base64URLEncode bs,
      (65 ≤ c ∧ c ≤ 90) ∨ (97 ≤ c ∧ c ≤ 122) ∨ (48 ≤ c ∧ c ≤ 57) ∨ c = 45 ∨ c = 95 := by
  induction bs using base64URLEncode.induct with
  | case1 => simp [base64URLEncode]
  | case2 a =>
    intro c hc
    simp only [base64URLEncode, List.mem_cons, List.mem_singleton, List.not_mem_nil, or_false] at hc
    rcases hc with rfl | rfl <;> exact b64Char_alphabet _
  | case3 a b =>
    intro c hc
    simp only [base64URLEncode, List.mem_cons, List.mem_singleton, List.not_mem_nil, or_false] at hc
    rcases hc with rfl | rfl | rfl <;> exact b64Char_alphabet _
  | case4 a b c rest ih =>
    intro x hx
    simp only [base64URLEncode, List.mem_cons] at hx
    rcases hx with rfl | rfl | rfl | rfl | hx
    · exact b64Char_alphabet _
    · exact b64Char_alphabet _
    · exact b64Char_alphabet _
    · exact b64Char_alphabet _
    · exact ih x hx

theorem dot_not_mem_base64URLEncode (bs : List Nat) : dot ∉ base64URLEncode bs := by
  intro h
  have := base64URLEncode_alphabet bs dot h
  simp [dot] at this

theorem base64URLEncode_filter (bs : List Nat) :
    (base64URLEncode bs).filter (fun c => c ≠ 10 ∧ c ≠ 13) = base64URLEncode bs := by
  rw [List.filter_eq_self]
  intro c hc
  have := base64URLEncode_alphabet bs c hc
  simp only [ne_eq, decide_eq_true_eq]
  omega

theorem decodeQuanta_encode (bs : List Nat) (h : ∀ b ∈ bs, b < 256) :
    decodeQuanta (base64URLEncode bs) = some bs := by
  induction bs using base64URLEncode.induct with
  | case1 => simp [base64URLEncode, decodeQuanta]
  | case2 a =>
    have ha : a < 256 := h a (by simp)
    simp only [base64URLEncode, decodeQuanta]
    rw [b64Val_b64Char _ (by omega), b64Val_b64Char _ (by omega)]
    simp only [Option.some.injEq, List.cons.injEq, and_true]
    omega
  | case3 a b =>
    have ha : a < 256 := h a (by simp)
    have hb : b < 256 := h b (by simp)
    simp only [base64URLEncode, decodeQuanta]
    rw [b64Val_b64Char _ (by omega), b64Val_b64Char _ (by omega), b64Val_b64Char _ (by omega)]
    simp only [Option.some.injEq, List.cons.injEq, and_true]
    omega
  | case4 a b c rest ih =>
    have ha : a < 256 := h a (by simp)
    have hb : b < 256 := h b (by simp)
    have hc : c < 256 := h c (by simp)
    have hr : ∀ x ∈ rest, x < 256 := fun x hx => h x (by simp [hx])
    simp only [base64URLEncode, decodeQuanta]
    rw [b64Val_b64Char _ (by omega), b64Val_b64Char _ (by omega), b64Val_b64Char _ (by omega),
      b64Val_b64Char _ (by omega), ih hr]
    simp only [Option.some.injEq, List.cons.injEq, and_true]
    omega

/-- Decoding undoes encoding on every string of bytes. -/
theorem base64URLDecode_encode (bs : List Nat) (h : ∀ b ∈ bs, b < 256) :
    base64URLDecode (base64URLEncode bs) = some bs := by
  unfold base64URLDecode
  rw [base64URLEncode_filter, decodeQuanta_encode bs h]

theorem base64URLEncode_length (bs : List Nat) :
    (base64URLEncode bs).length = (bs.length * 4 + 2) / 3 := by
  induction bs using base64URLEncode.induct with
  | case1 => simp [base64URLEncode]
  | case2 a => simp [base64URLEncode]
  | case3 a b => simp [base64URLEncode]
  | case4 a b c rest ih =>
    simp only [base64URLEncode, List.length_cons, ih]
    omega

theorem base64URLEncode_ne_nil (bs : List Nat) (h : bs ≠ []) : base64URLEncode bs ≠ [] := by
  intro e
  have hl := base64URLEncode_length bs
  rw [e] at hl
  have : 0 < bs.length := List.length_pos.mpr h
  simp only [List.length_nil] at hl
  omega

end GoLogin

namespace GoLogin

/-! ## Facts about the signature -/

theorem sha256_length (msg : List Nat) : (sha256 msg).length = 32 := by
  simp [sha256, wordBytes]

theorem hmacSHA256_length (key msg : List Nat) : (hmacSHA256 key msg).length = 32 := by
  simp only [hmacSHA256, sha256_length]

theorem createSignatureWith_length (key header payload : List Nat) :
    (createSignatureWith key header payload).length = 43 := by
  simp only [createSignatureWith, base64URLEncode_length, hmacSHA256_length]

theorem dot_not_mem_createSignatureWith (key header payload : List Nat) :
    dot ∉ createSignatureWith key header payload :=
  dot_not_mem_base64URLEncode _

/-- A key shorter than the block is filled with zeros, so a key and the same
key followed by a zero byte give the same tag on every message. -/
theorem hmacKeyBlock_zero_padded : hmacKeyBlock [97] = hmacKeyBlock [97, 0] := by
  decide

theorem createSignatureWith_zero_padded (header payload : List Nat) :
    createSignatureWith [97, 0] header payload = createSignatureWith [97] header payload := by
  simp only [createSignatureWith, hmacSHA256, hmacKeyBlock_zero_padded]

end GoLogin

namespace GoLogin

/-! ## Facts about UTF-8 and the three string routines -/

theorem runeLen_two (b0 b1 : Nat) (r : List Nat) (h : validRune2 b0 b1 = true) :
    runeLen (b0 :: b1 :: r) = 2 := by
  rcases r with _ | ⟨b2, _ | ⟨b3, r⟩⟩ <;> simp [runeLen, h]

theorem runeLen_three (b0 b1 b2 : Nat) (r : List Nat) (h2 : validRune2 b0 b1 = false)
    (h : validRune3 b0 b1 b2 = true) : runeLen (b0 :: b1 :: b2 :: r) = 3 := by
  rcases r with _ | ⟨b3, r⟩ <;> simp [runeLen, h, h2]

theorem runeLen_four (b0 b1 b2 b3 : Nat) (r : List Nat) (h2 : validRune2 b0 b1 = false)
    (h3 : validRune3 b0 b1 b2 = false) (h : validRune4 b0 b1 b2 b3 = true) :
    runeLen (b0 :: b1 :: b2 :: b3 :: r) = 4 := by
  simp [runeLen, h, h2, h3]

/-- The ways `runeLen` can come out. -/
theorem runeLen_cases (l : List Nat) :
    runeLen l = 0 ∨
    (∃ b0 b1 r, l = b0 :: b1 :: r ∧ validRune2 b0 b1 = true ∧ runeLen l = 2) ∨
    (∃ b0 b1 b2 r, l = b0 :: b1 :: b2 :: r ∧ validRune2 b0 b1 = false ∧
      validRune3 b0 b1 b2 = true ∧ runeLen l = 3) ∨
    (∃ b0 b1 b2 b3 r, l = b0 :: b1 :: b2 :: b3 :: r ∧ validRune2 b0 b1 = false ∧
      validRune3 b0 b1 b2 = false ∧ validRune4 b0 b1 b2 b3 = true ∧ runeLen l = 4) := by
  rcases l with _ | ⟨b0, _ | ⟨b1, _ | ⟨b2, _ | ⟨b3, r⟩⟩⟩⟩
  · simp [runeLen]
  · simp [runeLen]
  · by_cases h2 : validRune2 b0 b1 = true
    · right; left; exact ⟨b0, b1, [], rfl, h2, runeLen_two _ _ _ h2⟩
    · left; simp [runeLen, h2]
  · by_cases h2 : validRune2 b0 b1 = true
    · right; left; exact ⟨b0, b1, [b2], rfl, h2, runeLen_two _ _ _ h2⟩
    · simp only [Bool.not_eq_true] at h2
      by_cases h3 : validRune3 b0 b1 b2 = true
      · right; right; left; exact ⟨b0, b1, b2, [], rfl, h2, h3, runeLen_three _ _ _ _ h2 h3⟩
      · left; simp [runeLen, h2, h3]
  · by_cases h2 : validRune2 b0 b1 = true
    · right; left; exact ⟨b0, b1, b2 :: b3 :: r, rfl, h2, runeLen_two _ _ _ h2⟩
    · simp only [Bool.not_eq_true] at h2
      by_cases h3 : validRune3 b0 b1 b2 = true
      · right; right; left
        exact ⟨b0, b1, b2, b3 :: r, rfl, h2, h3, runeLen_three _ _ _ _ h2 h3⟩
      · simp only [Bool.not_eq_true] at h3
        by_cases h4 : validRune4 b0 b1 b2 b3 = true
        · right; right; right
          exact ⟨b0, b1, b2, b3, r, rfl, h2, h3, h4, runeLen_four _ _ _ _ _ h2 h3 h4⟩
        · left; simp [runeLen, h2, h3, h4]

/-- Induction along the runes of a byte string, as the string routines walk it. -/
theorem rune_induction (P : List Nat → Prop) (hnil : P [])
    (hascii : ∀ b rest, b < 0x80 → P rest → P (b :: rest))
    (h2 : ∀ b0 b1 r, ¬ b0 < 0x80 → validRune2 b0 b1 = true → P r → P (b0 :: b1 :: r))
    (h3 : ∀ b0 b1 b2 r, ¬ b0 < 0x80 → validRune2 b0 b1 = false → validRune3 b0 b1 b2 = true →
      P r → P (b0 :: b1 :: b2 :: r))
    (h4 : ∀ b0 b1 b2 b3 r, ¬ b0 < 0x80 → validRune2 b0 b1 = false →
      validRune3 b0 b1 b2 = false → validRune4 b0 b1 b2 b3 = true → P r →
      P (b0 :: b1 :: b2 :: b3 :: r))
    (hbad : ∀ b0 rest, ¬ b0 < 0x80 → runeLen (b0 :: rest) = 0 → P rest → P (b0 :: rest)) :
    ∀ s, P s := by
  have key : ∀ n, ∀ s : List Nat, s.length ≤ n → P s := by
    intro n
    induction n with
    | zero =>
      intro s hs
      have : s = [] := List.length_eq_zero.mp (by omega)
      rw [this]
      exact hnil
    | succ n ih =>
      intro s hs
      cases s with
      | nil => exact hnil
      | cons b0 rest =>
        simp only [List.length_cons] at hs
        have hrest : P rest := ih rest (by omega)
        by_cases hb : b0 < 0x80
        · exact hascii b0 rest hb hrest
        · rcases runeLen_cases (b0 :: rest) with h | ⟨c0, c1, r, e, v2, _⟩ |
            ⟨c0, c1, c2, r, e, v2, v3, _⟩ | ⟨c0, c1, c2, c3, r, e, v2, v3, v4, _⟩
          · exact hbad b0 rest hb h hrest
          · simp only [List.cons.injEq] at e
            obtain ⟨rfl, rfl⟩ := e
            simp only [List.length_cons] at hs
            exact h2 _ _ _ hb v2 (ih r (by omega))
          · simp only [List.cons.injEq] at e
            obtain ⟨rfl, rfl⟩ := e
            simp only [List.length_cons] at hs
            exact h3 _ _ _ _ hb v2 v3 (ih r (by omega))
          · simp only [List.cons.injEq] at e
            obtain ⟨rfl, rfl⟩ := e
            simp only [List.length_cons] at hs
            exact h4 _ _ _ _ _ hb v2 v3 v4 (ih r (by omega))
  exact fun s => key s.length s (le_refl _)

end GoLogin

namespace GoLogin

theorem coerceUTF8_ascii (b : Nat) (rest : List Nat) (hb : b < 0x80) :
    coerceUTF8 (b :: rest) = b :: coerceUTF8 rest := by
  rw [coerceUTF8.eq_def]
  simp [hb]

theorem coerceUTF8_rune2 (b0 b1 : Nat) (r : List Nat) (hb : ¬ b0 < 0x80)
    (h : validRune2 b0 b1 = true) : coerceUTF8 (b0 :: b1 :: r) = b0 :: b1 :: coerceUTF8 r := by
  rw [coerceUTF8.eq_def]
  simp [hb, runeLen_two _ _ _ h]

theorem coerceUTF8_rune3 (b0 b1 b2 : Nat) (r : List Nat) (hb : ¬ b0 < 0x80)
    (h2 : validRune2 b0 b1 = false) (h : validRune3 b0 b1 b2 = true) :
    coerceUTF8 (b0 :: b1 :: b2 :: r) = b0 :: b1 :: b2 :: coerceUTF8 r := by
  rw [coerceUTF8.eq_def]
  simp [hb, runeLen_three _ _ _ _ h2 h]

theorem coerceUTF8_rune4 (b0 b1 b2 b3 : Nat) (r : List Nat) (hb : ¬ b0 < 0x80)
    (h2 : validRune2 b0 b1 = false) (h3 : validRune3 b0 b1 b2 = false)
    (h : validRune4 b0 b1 b2 b3 = true) :
    coerceUTF8 (b0 :: b1 :: b2 :: b3 :: r) = b0 :: b1 :: b2 :: b3 :: coerceUTF8 r := by
  rw [coerceUTF8.eq_def]
  simp [hb, runeLen_four _ _ _ _ _ h2 h3 h]

theorem coerceUTF8_bad (b0 : Nat) (rest : List Nat) (hb : ¬ b0 < 0x80)
    (h : runeLen (b0 :: rest) = 0) :
    coerceUTF8 (b0 :: rest) = replacement ++ coerceUTF8 rest := by
  rw [coerceUTF8.eq_def]
  simp [hb, h]

end GoLogin

namespace GoLogin

theorem appendStringBody_ascii (b : Nat) (rest : List Nat) (hb : b < 0x80) :
    appendStringBody (b :: rest) = escapeASCII b ++ appendStringBody rest := by
  rw [appendStringBody.eq_def]
  simp [hb]

theorem appendStringBody_rune2 (b0 b1 : Nat) (r : List Nat) (hb : ¬ b0 < 0x80)
    (h : validRune2 b0 b1 = true) :
    appendStringBody (b0 :: b1 :: r) = b0 :: b1 :: appendStringBody r := by
  rw [appendStringBody.eq_def]
  simp [hb, runeLen_two _ _ _ h]

theorem appendStringBody_rune3 (b0 b1 b2 : Nat) (r : List Nat) (hb : ¬ b0 < 0x80)
    (h2 : validRune2 b0 b1 = false) (h : validRune3 b0 b1 b2 = true) :
    appendStringBody (b0 :: b1 :: b2 :: r) =
      (if b0 = 0xE2 ∧ b1 = 0x80 ∧ (b2 = 0xA8 ∨ b2 = 0xA9)
        then [92, 117, 50, 48, 50, hexDigit (b2 % 16)]
        else [b0, b1, b2]) ++ appendStringBody r := by
  rw [appendStringBody.eq_def]
  simp [hb, runeLen_three _ _ _ _ h2 h]

theorem appendStringBody_rune4 (b0 b1 b2 b3 : Nat) (r : List Nat) (hb : ¬ b0 < 0x80)
    (h2 : validRune2 b0 b1 = false) (h3 : validRune3 b0 b1 b2 = false)
    (h : validRune4 b0 b1 b2 b3 = true) :
    appendStringBody (b0 :: b1 :: b2 :: b3 :: r) = b0 :: b1 :: b2 :: b3 :: appendStringBody r := by
  rw [appendStringBody.eq_def]
  simp [hb, runeLen_four _ _ _ _ _ h2 h3 h]

theorem appendStringBody_bad (b0 : Nat) (rest : List Nat) (hb : ¬ b0 < 0x80)
    (h : runeLen (b0 :: rest) = 0) :
    appendStringBody (b0 :: rest) = [92, 117, 102, 102, 102, 100] ++ appendStringBody rest := by
  rw [appendStringBody.eq_def]
  simp [hb, h]

theorem unquoteFrom_skip (k : Nat) (l : List Nat) :
    unquoteFrom k l = unquoteFrom 0 (l.drop k) := by
  induction k generalizing l with
  | zero => simp
  | succ k ih =>
    cases l with
    | nil => simp [unquoteFrom]
    | cons b rest => simp [unquoteFrom, ih rest]

theorem unquote_cons (b0 : Nat) (rest : List Nat) :
    unquote (b0 :: rest) =
      (unquoteStep b0 rest).1 ++ unquote (rest.drop ((unquoteStep b0 rest).2 - 1)) := by
  simp only [unquote, unquoteFrom]
  rw [unquoteFrom_skip]

theorem unquote_ascii (b : Nat) (rest : List Nat) (hb : b < 0x80) (h92 : b ≠ 92) :
    unquote (b :: rest) = b :: unquote rest := by
  rw [unquote_cons]
  simp [unquoteStep, hb, h92]

theorem unquote_escape (c : Nat) (rest : List Nat) (hc : c ≠ 117) :
    unquote (92 :: c :: rest) = unescape c :: unquote rest := by
  rw [unquote_cons]
  simp [unquoteStep, hc]

theorem unquote_u (h1 h2 h3 h4 : Nat) (r : List Nat)
    (hs : ¬ (0xD800 ≤ hex4 h1 h2 h3 h4 ∧ hex4 h1 h2 h3 h4 < 0xE000)) :
    unquote (92 :: 117 :: h1 :: h2 :: h3 :: h4 :: r) =
      utf8Encode (hex4 h1 h2 h3 h4) ++ unquote r := by
  rw [unquote_cons]
  simp only [unquoteStep, ↓reduceIte]
  rw [if_neg hs]
  simp

theorem unquote_rune2 (b0 b1 : Nat) (r : List Nat) (hb : ¬ b0 < 0x80)
    (h : validRune2 b0 b1 = true) : unquote (b0 :: b1 :: r) = b0 :: b1 :: unquote r := by
  have h92 : b0 ≠ 92 := by omega
  rw [unquote_cons]
  simp [unquoteStep, hb, h92, runeLen_two _ _ _ h]

theorem unquote_rune3 (b0 b1 b2 : Nat) (r : List Nat) (hb : ¬ b0 < 0x80)
    (h2 : validRune2 b0 b1 = false) (h : validRune3 b0 b1 b2 = true) :
    unquote (b0 :: b1 :: b2 :: r) = b0 :: b1 :: b2 :: unquote r := by
  have h92 : b0 ≠ 92 := by omega
  rw [unquote_cons]
  simp [unquoteStep, hb, h92, runeLen_three _ _ _ _ h2 h]

theorem unquote_rune4 (b0 b1 b2 b3 : Nat) (r : List Nat) (hb : ¬ b0 < 0x80)
    (h2 : validRune2 b0 b1 = false) (h3 : validRune3 b0 b1 b2 = false)
    (h : validRune4 b0 b1 b2 b3 = true) :
    unquote (b0 :: b1 :: b2 :: b3 :: r) = b0 :: b1 :: b2 :: b3 :: unquote r := by
  have h92 : b0 ≠ 92 := by omega
  rw [unquote_cons]
  simp [unquoteStep, hb, h92, runeLen_four _ _ _ _ _ h2 h3 h]

theorem validUTF8_ascii (b : Nat) (rest : List Nat) (hb : b < 0x80) :
    validUTF8 (b :: rest) = validUTF8 rest := by
  rw [validUTF8.eq_def]
  simp [hb]

theorem validUTF8_rune2 (b0 b1 : Nat) (r : List Nat) (hb : ¬ b0 < 0x80)
    (h : validRune2 b0 b1 = true) : validUTF8 (b0 :: b1 :: r) = validUTF8 r := by
  rw [validUTF8.eq_def]
  simp [hb, runeLen_two _ _ _ h]

theorem validUTF8_rune3 (b0 b1 b2 : Nat) (r : List Nat) (hb : ¬ b0 < 0x80)
    (h2 : validRune2 b0 b1 = false) (h : validRune3 b0 b1 b2 = true) :
    validUTF8 (b0 :: b1 :: b2 :: r) = validUTF8 r := by
  rw [validUTF8.eq_def]
  simp [hb, runeLen_three _ _ _ _ h2 h]

theorem validUTF8_rune4 (b0 b1 b2 b3 : Nat) (r : List Nat) (hb : ¬ b0 < 0x80)
    (h2 : validRune2 b0 b1 = false) (h3 : validRune3 b0 b1 b2 = false)
    (h : validRune4 b0 b1 b2 b3 = true) :
    validUTF8 (b0 :: b1 :: b2 :: b3 :: r) = validUTF8 r := by
  rw [validUTF8.eq_def]
  simp [hb, runeLen_four _ _ _ _ _ h2 h3 h]

theorem validUTF8_bad (b0 : Nat) (rest : List Nat) (hb : ¬ b0 < 0x80)
    (h : runeLen (b0 :: rest) = 0) : validUTF8 (b0 :: rest) = false := by
  rw [validUTF8.eq_def]
  simp [hb, h]

/-- A string that is valid UTF-8 passes through the coercion unchanged. -/
theorem coerceUTF8_of_valid : ∀ s, validUTF8 s = true → coerceUTF8 s = s := by
  apply rune_induction
  · intro _; rfl
  · intro b rest hb ih hv
    rw [validUTF8_ascii _ _ hb] at hv
    rw [coerceUTF8_ascii _ _ hb, ih hv]
  · intro b0 b1 r hb h ih hv
    rw [validUTF8_rune2 _ _ _ hb h] at hv
    rw [coerceUTF8_rune2 _ _ _ hb h, ih hv]
  · intro b0 b1 b2 r hb h2 h ih hv
    rw [validUTF8_rune3 _ _ _ _ hb h2 h] at hv
    rw [coerceUTF8_rune3 _ _ _ _ hb h2 h, ih hv]
  · intro b0 b1 b2 b3 r hb h2 h3 h ih hv
    rw [validUTF8_rune4 _ _ _ _ _ hb h2 h3 h] at hv
    rw [coerceUTF8_rune4 _ _ _ _ _ hb h2 h3 h, ih hv]
  · intro b0 rest hb h _ hv
    rw [validUTF8_bad _ _ hb h] at hv
    exact absurd hv (by simp)

end GoLogin

namespace GoLogin

theorem hexVal_hexDigit (n : Nat) (h : n < 16) : hexVal (hexDigit n) = n := by
  unfold hexVal hexDigit
  split_ifs <;> omega

theorem unquote_escapeASCII (b : Nat) (rest : List Nat) (hb : b < 0x80) :
    unquote (escapeASCII b ++ rest) = b :: unquote rest := by
  unfold escapeASCII
  split_ifs with h1 h2 h3 h4 h5 h6 h7
  · rcases h1 with rfl | rfl
    · exact unquote_escape 34 rest (by decide)
    · exact unquote_escape 92 rest (by decide)
  · subst h2; exact unquote_escape 98 rest (by decide)
  · subst h3; exact unquote_escape 102 rest (by decide)
  · subst h4; exact unquote_escape 110 rest (by decide)
  · subst h5; exact unquote_escape 114 rest (by decide)
  · subst h6; exact unquote_escape 116 rest (by decide)
  · have hv : hex4 48 48 (hexDigit (b / 16)) (hexDigit (b % 16)) = b := by
      simp only [hex4, hexVal_hexDigit (b / 16) (by omega), hexVal_hexDigit (b % 16) (by omega)]
      have : hexVal 48 = 0 := by decide
      rw [this]
      omega
    have := unquote_u 48 48 (hexDigit (b / 16)) (hexDigit (b % 16)) rest (by rw [hv]; omega)
    rw [hv] at this
    simpa [utf8Encode, hb] using this
  · have h92 : b ≠ 92 := fun e => h1 (Or.inr e)
    exact unquote_ascii b rest hb h92

/-- What `json.Marshal` writes for a string, `Unmarshal` reads back as the
string coerced to valid UTF-8. -/
theorem unquote_appendStringBody : ∀ s, unquote (appendStringBody s) = coerceUTF8 s := by
  apply rune_induction
  · rfl
  · intro b rest hb ih
    rw [appendStringBody_ascii _ _ hb, unquote_escapeASCII _ _ hb, ih, coerceUTF8_ascii _ _ hb]
  · intro b0 b1 r hb h ih
    rw [appendStringBody_rune2 _ _ _ hb h, unquote_rune2 _ _ _ hb h, ih,
      coerceUTF8_rune2 _ _ _ hb h]
  · intro b0 b1 b2 r hb h2 h ih
    rw [appendStringBody_rune3 _ _ _ _ hb h2 h, coerceUTF8_rune3 _ _ _ _ hb h2 h]
    split_ifs with hsep
    · obtain ⟨rfl, rfl, hb2⟩ := hsep
      rcases hb2 with rfl | rfl
      · have := unquote_u 50 48 50 (hexDigit (0xA8 % 16)) (appendStringBody r) (by decide)
        rw [List.cons_append, List.cons_append, List.cons_append, List.cons_append,
          List.cons_append, List.cons_append, List.nil_append, this, ih]
        rfl
      · have := unquote_u 50 48 50 (hexDigit (0xA9 % 16)) (appendStringBody r) (by decide)
        rw [List.cons_append, List.cons_append, List.cons_append, List.cons_append,
          List.cons_append, List.cons_append, List.nil_append, this, ih]
        rfl
    · rw [List.cons_append, List.cons_append, List.cons_append, List.nil_append,
        unquote_rune3 _ _ _ _ hb h2 h, ih]
  · intro b0 b1 b2 b3 r hb h2 h3 h ih
    rw [appendStringBody_rune4 _ _ _ _ _ hb h2 h3 h, unquote_rune4 _ _ _ _ _ hb h2 h3 h, ih,
      coerceUTF8_rune4 _ _ _ _ _ hb h2 h3 h]
  · intro b0 rest hb h ih
    rw [appendStringBody_bad _ _ hb h, coerceUTF8_bad _ _ hb h]
    have := unquote_u 102 102 102 100 (appendStringBody rest) (by decide)
    rw [List.cons_append, List.cons_append, List.cons_append, List.cons_append,
      List.cons_append, List.cons_append, List.nil_append, this, ih]
    rfl

end GoLogin

namespace GoLogin

/-! ## The scanner on what `Marshal` writes -/

theorem isHex_hexDigit (n : Nat) (h : n < 16) : isHex (hexDigit n) = true := by
  unfold isHex hexDigit
  split_ifs <;> simp <;> omega

theorem step_inString_plain (raw : List Nat) (stack : List Frame) (c : Nat)
    (h32 : ¬ c < 32) (h34 : c ≠ 34) (h92 : c ≠ 92) :
    step { mode := .inString raw, stack := stack, top := none } c =
      { mode := .inString (raw ++ [c]), stack := stack, top := none } := by
  simp [step, h32, h34, h92]

theorem step_inString_escape (raw : List Nat) (stack : List Frame) (c : Nat)
    (hc : c = 98 ∨ c = 102 ∨ c = 110 ∨ c = 114 ∨ c = 116 ∨ c = 92 ∨ c = 47 ∨ c = 34) :
    List.foldl step { mode := .inString raw, stack := stack, top := none } [92, c] =
      { mode := .inString (raw ++ [92, c]), stack := stack, top := none } := by
  simp [step, hc]

theorem step_inString_u (raw : List Nat) (stack : List Frame) (h1 h2 h3 h4 : Nat)
    (e1 : isHex h1 = true) (e2 : isHex h2 = true) (e3 : isHex h3 = true) (e4 : isHex h4 = true) :
    List.foldl step { mode := .inString raw, stack := stack, top := none }
        [92, 117, h1, h2, h3, h4] =
      { mode := .inString (raw ++ [92, 117, h1, h2, h3, h4]), stack := stack, top := none } := by
  simp [step, e1, e2, e3, e4]

theorem scan_escapeASCII (raw : List Nat) (stack : List Frame) (b : Nat) (hb : b < 0x80) :
    List.foldl step { mode := .inString raw, stack := stack, top := none } (escapeASCII b) =
      { mode := .inString (raw ++ escapeASCII b), stack := stack, top := none } := by
  unfold escapeASCII
  split_ifs with h1 h2 h3 h4 h5 h6 h7
  · exact step_inString_escape raw stack b (by omega)
  · exact step_inString_escape raw stack 98 (by decide)
  · exact step_inString_escape raw stack 102 (by decide)
  · exact step_inString_escape raw stack 110 (by decide)
  · exact step_inString_escape raw stack 114 (by decide)
  · exact step_inString_escape raw stack 116 (by decide)
  · exact step_inString_u raw stack 48 48 _ _ (by decide) (by decide)
      (isHex_hexDigit _ (by omega)) (isHex_hexDigit _ (by omega))
  · simp only [List.foldl]
    exact step_inString_plain raw stack b (by omega) (by omega) (by omega)

/-- Inside a string literal the scanner reads the whole body that `Marshal`
has written and stays inside the literal. -/
theorem scan_appendStringBody : ∀ (s raw : List Nat) (stack : List Frame),
    List.foldl step { mode := .inString raw, stack := stack, top := none } (appendStringBody s) =
      { mode := .inString (raw ++ appendStringBody s), stack := stack, top := none } := by
  intro s
  induction s using rune_induction with
  | hnil => intro raw stack; simp [appendStringBody]
  | hascii b rest hb ih =>
    intro raw stack
    rw [appendStringBody_ascii _ _ hb, List.foldl_append, scan_escapeASCII _ _ _ hb, ih,
      List.append_assoc]
  | h2 b0 b1 r hb h ih =>
    intro raw stack
    have h1c : ¬ b1 < 32 ∧ b1 ≠ 34 ∧ b1 ≠ 92 := by
      simp [validRune2, isCont] at h; omega
    rw [appendStringBody_rune2 _ _ _ hb h]
    simp only [List.foldl]
    rw [step_inString_plain _ _ b0 (by omega) (by omega) (by omega),
      step_inString_plain _ _ b1 h1c.1 h1c.2.1 h1c.2.2, ih]
    simp
  | h3 b0 b1 b2 r hb h2 h ih =>
    intro raw stack
    have hc : (¬ b1 < 32 ∧ b1 ≠ 34 ∧ b1 ≠ 92) ∧ (¬ b2 < 32 ∧ b2 ≠ 34 ∧ b2 ≠ 92) := by
      simp [validRune3, isCont] at h; omega
    rw [appendStringBody_rune3 _ _ _ _ hb h2 h, List.foldl_append]
    split_ifs with hsep
    · rw [step_inString_u _ _ 50 48 50 _ (by decide) (by decide) (by decide)
        (isHex_hexDigit _ (by omega)), ih, List.append_assoc]
    · simp only [List.foldl]
      rw [step_inString_plain _ _ b0 (by omega) (by omega) (by omega),
        step_inString_plain _ _ b1 hc.1.1 hc.1.2.1 hc.1.2.2,
        step_inString_plain _ _ b2 hc.2.1 hc.2.2.1 hc.2.2.2, ih]
      simp
  | h4 b0 b1 b2 b3 r hb h2 h3 h ih =>
    intro raw stack
    have hc : (¬ b1 < 32 ∧ b1 ≠ 34 ∧ b1 ≠ 92) ∧ (¬ b2 < 32 ∧ b2 ≠ 34 ∧ b2 ≠ 92) ∧
        (¬ b3 < 32 ∧ b3 ≠ 34 ∧ b3 ≠ 92) := by
      simp [validRune4, isCont] at h; omega
    rw [appendStringBody_rune4 _ _ _ _ _ hb h2 h3 h]
    simp only [List.foldl]
    rw [step_inString_plain _ _ b0 (by omega) (by omega) (by omega),
      step_inString_plain _ _ b1 hc.1.1 hc.1.2.1 hc.1.2.2,
      step_inString_plain _ _ b2 hc.2.1.1 hc.2.1.2.1 hc.2.1.2.2,
      step_inString_plain _ _ b3 hc.2.2.1 hc.2.2.2.1 hc.2.2.2.2, ih]
    simp
  | hbad b0 rest hb h ih =>
    intro raw stack
    rw [appendStringBody_bad _ _ hb h, List.foldl_append,
      step_inString_u _ _ 102 102 102 100 (by decide) (by decide) (by decide) (by decide), ih,
      List.append_assoc]

/-- Every byte that `Marshal` writes for a string is below 256. -/
theorem appendStringBody_byte : ∀ s, ∀ c ∈ appendStringBody s, c < 256 := by
  intro s
  induction s using rune_induction with
  | hnil => simp [appendStringBody]
  | hascii b rest hb ih =>
    intro c hc
    rw [appendStringBody_ascii _ _ hb, List.mem_append] at hc
    rcases hc with hc | hc
    · unfold escapeASCII hexDigit at hc
      split_ifs at hc <;> simp at hc <;> omega
    · exact ih c hc
  | h2 b0 b1 r hb h ih =>
    intro c hc
    rw [appendStringBody_rune2 _ _ _ hb h] at hc
    simp only [List.mem_cons] at hc
    simp [validRune2, isCont] at h
    rcases hc with rfl | rfl | hc
    · omega
    · omega
    · exact ih c hc
  | h3 b0 b1 b2 r hb h2 h ih =>
    intro c hc
    rw [appendStringBody_rune3 _ _ _ _ hb h2 h, List.mem_append] at hc
    simp [validRune3, isCont] at h
    rcases hc with hc | hc
    · unfold hexDigit at hc
      split_ifs at hc <;> simp at hc <;> omega
    · exact ih c hc
  | h4 b0 b1 b2 b3 r hb h2 h3 h ih =>
    intro c hc
    rw [appendStringBody_rune4 _ _ _ _ _ hb h2 h3 h] at hc
    simp only [List.mem_cons] at hc
    simp [validRune4, isCont] at h
    rcases hc with rfl | rfl | rfl | rfl | hc
    · omega
    · omega
    · omega
    · omega
    · exact ih c hc
  | hbad b0 rest hb h ih =>
    intro c hc
    rw [appendStringBody_bad _ _ hb h, List.mem_append] at hc
    rcases hc with hc | hc
    · simp at hc; omega
    · exact ih c hc

end GoLogin

namespace GoLogin

/-! ## Decimal numbers -/

theorem digitsValue_append (ds : List Nat) (d : Nat) :
    digitsValue (ds ++ [d]) = digitsValue ds * 10 + (d - 48) := by
  simp [digitsValue, List.foldl_append]

theorem decDigits_value (fuel : Nat) : ∀ n, n < fuel → digitsValue (decDigits fuel n) = n := by
  induction fuel with
  | zero => intro n h; omega
  | succ fuel ih =>
    intro n h
    unfold decDigits
    split_ifs with h10
    · simp [digitsValue]
    · rw [digitsValue_append, ih (n / 10) (by omega)]
      omega

theorem decDigits_all (fuel : Nat) : ∀ n, (decDigits fuel n).all isDigit = true := by
  induction fuel with
  | zero => intro n; simp [decDigits]
  | succ fuel ih =>
    intro n
    unfold decDigits
    split_ifs with h10
    · simp [isDigit]; omega
    · rw [List.all_append, ih]
      simp [isDigit]; omega

/-- A positive number is written with a first digit other than `0`. -/
theorem decDigits_pos (fuel : Nat) : ∀ n, n < fuel → 0 < n →
    ∃ d ds, decDigits fuel n = d :: ds ∧ 49 ≤ d ∧ d ≤ 57 ∧ ds.all isDigit = true := by
  induction fuel with
  | zero => intro n h; omega
  | succ fuel ih =>
    intro n h hpos
    unfold decDigits
    split_ifs with h10
    · exact ⟨48 + n, [], rfl, by omega, by omega, by simp⟩
    · obtain ⟨d, ds, e, h1, h2, h3⟩ := ih (n / 10) (by omega) (by omega)
      refine ⟨d, ds ++ [48 + n % 10], by rw [e]; rfl, h1, h2, ?_⟩
      rw [List.all_append, h3]
      simp [isDigit]; omega

theorem formatNat_value (n : Nat) : digitsValue (formatNat n) = n :=
  decDigits_value (n + 1) n (by omega)

theorem formatNat_all (n : Nat) : (formatNat n).all isDigit = true :=
  decDigits_all (n + 1) n

theorem formatNat_zero : formatNat 0 = [48] := by decide

theorem formatNat_pos (n : Nat) (h : 0 < n) :
    ∃ d ds, formatNat n = d :: ds ∧ 49 ≤ d ∧ d ≤ 57 ∧ ds.all isDigit = true :=
  decDigits_pos (n + 1) n (by omega) h

theorem formatNat_ne_nil (n : Nat) : formatNat n ≠ [] := by
  rcases Nat.eq_zero_or_pos n with rfl | h
  · rw [formatNat_zero]; simp
  · obtain ⟨d, ds, e, _⟩ := formatNat_pos n h
    rw [e]; simp

theorem formatNat_byte (n : Nat) : ∀ c ∈ formatNat n, 48 ≤ c ∧ c ≤ 57 := by
  intro c hc
  have := List.all_eq_true.mp (formatNat_all n) c hc
  simpa [isDigit] using this

theorem formatInt_byte (n : Int) : ∀ c ∈ formatInt n, c < 256 := by
  intro c hc
  unfold formatInt at hc
  split_ifs at hc
  · rcases List.mem_cons.mp hc with rfl | hc
    · omega
    · have := formatNat_byte _ c hc; omega
  · have := formatNat_byte _ c hc; omega

/-- Reading back what `strconv.AppendInt` writes for an `int64`. -/
theorem parseInt64_formatInt (n : Int) (hlo : -9223372036854775808 ≤ n)
    (hhi : n ≤ 9223372036854775807) : parseInt64 (formatInt n) = some n := by
  unfold formatInt
  split_ifs with hneg
  · have hne := formatNat_ne_nil n.natAbs
    have hall := formatNat_all n.natAbs
    have hval := formatNat_value n.natAbs
    simp only [parseInt64, ↓reduceIte, hval]
    rw [if_pos ⟨hne, hall, by omega⟩]
    congr 1
    omega
  · have hall := formatNat_all n.natAbs
    have hval := formatNat_value n.natAbs
    rcases hfn : formatNat n.natAbs with _ | ⟨c, ds⟩
    · exact absurd hfn (formatNat_ne_nil _)
    · rw [hfn] at hall hval
      have hc : c ≠ 45 := by
        have := (List.all_eq_true.mp hall) c (by simp)
        simp [isDigit] at this
        omega
      simp only [parseInt64, hc, ↓reduceIte, hval]
      rw [if_pos ⟨hall, by omega⟩]
      congr 1
      omega

end GoLogin

namespace GoLogin

theorem scan_digits (ds : List Nat) (hds : ds.all isDigit = true) :
    ∀ (lit : List Nat) (stack : List Frame),
      List.foldl step { mode := .inNumber lit .int, stack := stack, top := none } ds =
        { mode := .inNumber (lit ++ ds) .int, stack := stack, top := none } := by
  induction ds with
  | nil => intro lit stack; simp
  | cons d ds ih =>
    intro lit stack
    simp only [List.all_cons, Bool.and_eq_true] at hds
    simp only [List.foldl]
    have : step { mode := .inNumber lit .int, stack := stack, top := none } d =
        { mode := .inNumber (lit ++ [d]) .int, stack := stack, top := none } := by
      simp [step, stepNumber, hds.1]
    rw [this, ih hds.2]
    simp

theorem scan_formatNat_begin (n : Nat) (stack : List Frame) :
    ∃ st, (st = NumState.zero ∨ st = NumState.int) ∧
      List.foldl step { mode := .beginValue false, stack := stack, top := none } (formatNat n) =
        { mode := .inNumber (formatNat n) st, stack := stack, top := none } := by
  rcases Nat.eq_zero_or_pos n with rfl | h
  · exact ⟨.zero, Or.inl rfl, by rw [formatNat_zero]; rfl⟩
  · obtain ⟨d, ds, e, h1, h2, h3⟩ := formatNat_pos n h
    refine ⟨.int, Or.inr rfl, ?_⟩
    rw [e]
    simp only [List.foldl]
    have hd : isDigit d = true := by simp [isDigit]; omega
    have : step { mode := .beginValue false, stack := stack, top := none } d =
        { mode := .inNumber [d] .int, stack := stack, top := none } := by
      have hs : isSpace d = false := by simp [isSpace]; omega
      have e1 : d ≠ 123 := by omega
      have e2 : d ≠ 91 := by omega
      have e3 : d ≠ 34 := by omega
      have e4 : d ≠ 45 := by omega
      have e5 : d ≠ 48 := by omega
      simp [step, stepBeginValue, hs, hd, e1, e2, e3, e4, e5]
    rw [this, scan_digits ds h3]
    simp

theorem scan_formatNat_neg (n : Nat) (stack : List Frame) :
    ∃ st, (st = NumState.zero ∨ st = NumState.int) ∧
      List.foldl step { mode := .inNumber [45] .neg, stack := stack, top := none } (formatNat n) =
        { mode := .inNumber (45 :: formatNat n) st, stack := stack, top := none } := by
  rcases Nat.eq_zero_or_pos n with rfl | h
  · exact ⟨.zero, Or.inl rfl, by rw [formatNat_zero]; rfl⟩
  · obtain ⟨d, ds, e, h1, h2, h3⟩ := formatNat_pos n h
    refine ⟨.int, Or.inr rfl, ?_⟩
    rw [e]
    simp only [List.foldl]
    have hd : isDigit d = true := by simp [isDigit]; omega
    have : step { mode := .inNumber [45] .neg, stack := stack, top := none } d =
        { mode := .inNumber [45, d] .int, stack := stack, top := none } := by
      have h48 : d ≠ 48 := by omega
      simp [step, stepNumber, hd, h48]
    rw [this, scan_digits ds h3]
    simp

/-- Where a value is due the scanner reads a rendered `int64` as one number
literal, left open until the next byte. -/
theorem scan_formatInt (n : Int) (stack : List Frame) :
    ∃ st, (st = NumState.zero ∨ st = NumState.int) ∧
      List.foldl step { mode := .beginValue false, stack := stack, top := none } (formatInt n) =
        { mode := .inNumber (formatInt n) st, stack := stack, top := none } := by
  unfold formatInt
  split_ifs with hneg
  · obtain ⟨st, hst, e⟩ := scan_formatNat_neg n.natAbs stack
    refine ⟨st, hst, ?_⟩
    simp only [List.foldl]
    have : step { mode := .beginValue false, stack := stack, top := none } 45 =
        { mode := .inNumber [45] .neg, stack := stack, top := none } := by rfl
    rw [this, e]
  · exact scan_formatNat_begin n.natAbs stack

end GoLogin

namespace GoLogin

theorem step_number_comma (lit : List Nat) (st : NumState) (hst : st = .zero ∨ st = .int)
    (ms : List (List Nat × JSON)) (k : List Nat) (rest : List Frame) :
    List.foldl step
        { mode := .inNumber lit st, stack := .obj ms (some k) :: rest, top := none } [44] =
      { mode := .beginString false, stack := .obj (ms ++ [(k, .num lit)]) none :: rest,
        top := none } := by
  rcases hst with rfl | rfl <;> rfl

theorem step_number_close (lit : List Nat) (st : NumState) (hst : st = .zero ∨ st = .int)
    (ms : List (List Nat × JSON)) (k : List Nat) :
    List.foldl step { mode := .inNumber lit st, stack := [.obj ms (some k)], top := none } [125] =
      { mode := .endValue, stack := [], top := some (.obj (ms ++ [(k, .num lit)])) } := by
  rcases hst with rfl | rfl <;> rfl

/-- The value the scanner finds in the JSON text of a `Payload`. -/
theorem scanJSON_marshalPayload (p : Payload) :
    scanJSON (marshalPayload p) =
      some (.obj [(str "username", .str (coerceUTF8 p.Username)),
        (str "exp", .num (formatInt p.Exp)), (str "iat", .num (formatInt p.Iat))]) := by
  have k1 : str "\x7b\"username\":" = [123, 34, 117, 115, 101, 114, 110, 97, 109, 101, 34, 58] := by
    decide
  have k2 : str ",\"exp\":" = [44, 34, 101, 120, 112, 34, 58] := by decide
  have k3 : str ",\"iat\":" = [44, 34, 105, 97, 116, 34, 58] := by decide
  have k4 : str "\x7d" = [125] := by decide
  have n1 : str "username" = [117, 115, 101, 114, 110, 97, 109, 101] := by decide
  have n2 : str "exp" = [101, 120, 112] := by decide
  have n3 : str "iat" = [105, 97, 116] := by decide
  obtain ⟨st1, hst1, e1⟩ := scan_formatInt p.Exp
    [.obj [([117, 115, 101, 114, 110, 97, 109, 101], .str (unquote (appendStringBody p.Username)))]
      (some [101, 120, 112])]
  obtain ⟨st2, hst2, e2⟩ := scan_formatInt p.Iat
    [.obj ([([117, 115, 101, 114, 110, 97, 109, 101],
      .str (unquote (appendStringBody p.Username)))] ++
      [([101, 120, 112], .num (formatInt p.Exp))]) (some [105, 97, 116])]
  have s1 : List.foldl step scanStart [123, 34, 117, 115, 101, 114, 110, 97, 109, 101, 34, 58, 34] =
      { mode := .inString [], stack := [.obj [] (some [117, 115, 101, 114, 110, 97, 109, 101])],
        top := none } := by rfl
  have s2 : ∀ body : List Nat,
      List.foldl step
        (Scanner.mk (.inString ([] ++ body))
          [.obj [] (some [117, 115, 101, 114, 110, 97, 109, 101])] none)
        [34, 44, 34, 101, 120, 112, 34, 58] =
      { mode := .beginValue false,
        stack := [.obj [([117, 115, 101, 114, 110, 97, 109, 101], .str (unquote body))]
          (some [101, 120, 112])], top := none } := by
    intro body; rfl
  have s3 : ∀ ms : List (List Nat × JSON),
      List.foldl step { mode := .beginString false, stack := [.obj ms none], top := none }
        [34, 105, 97, 116, 34, 58] =
      { mode := .beginValue false, stack := [.obj ms (some [105, 97, 116])], top := none } := by
    intro ms; rfl
  unfold scanJSON marshalPayload appendString
  simp only [k1, k2, k3, k4, n1, n2, n3]
  have hlist : [123, 34, 117, 115, 101, 114, 110, 97, 109, 101, 34, 58] ++
      (34 :: appendStringBody p.Username ++ [34]) ++ [44, 34, 101, 120, 112, 34, 58] ++
      formatInt p.Exp ++ [44, 34, 105, 97, 116, 34, 58] ++ formatInt p.Iat ++ [125] =
      [123, 34, 117, 115, 101, 114, 110, 97, 109, 101, 34, 58, 34] ++
      (appendStringBody p.Username ++ ([34, 44, 34, 101, 120, 112, 34, 58] ++
      (formatInt p.Exp ++ ([44] ++ ([34, 105, 97, 116, 34, 58] ++
      (formatInt p.Iat ++ [125])))))) := by
    simp
  rw [hlist]
  simp only [List.foldl_append]
  rw [s1, scan_appendStringBody, s2, e1, step_number_comma _ _ hst1, s3, e2, step_number_close _ _ hst2, unquote_appendStringBody]
  rfl

end GoLogin

namespace GoLogin

/-! ## `Unmarshal` after `Marshal` -/

/-- Decoding the JSON text of a `Payload` gives the payload back, the user
name coerced to valid UTF-8. -/
theorem unmarshalPayload_marshalPayload (p : Payload) (he : isInt64 p.Exp) (hi : isInt64 p.Iat) :
    unmarshalPayload (marshalPayload p) =
      .ok { Username := coerceUTF8 p.Username, Exp := p.Exp, Iat := p.Iat } := by
  have f1 : foldName (str "username") = str "USERNAME" := by decide
  have f2 : foldName (str "exp") = str "EXP" := by decide
  have f3 : foldName (str "iat") = str "IAT" := by decide
  have g1 : str "EXP" ≠ str "USERNAME" := by decide
  have g2 : str "IAT" ≠ str "USERNAME" := by decide
  have g3 : str "IAT" ≠ str "EXP" := by decide
  unfold unmarshalPayload
  rw [scanJSON_marshalPayload]
  simp only [storeMembers, storeField, f1, f2, f3, g1, g2, g3, ↓reduceIte,
    parseInt64_formatInt p.Exp he.1 he.2, parseInt64_formatInt p.Iat hi.1 hi.2, Option.map_some']

theorem bytes_append (l1 l2 : List Nat) (h1 : ∀ c ∈ l1, c < 256) (h2 : ∀ c ∈ l2, c < 256) :
    ∀ c ∈ l1 ++ l2, c < 256 := by
  intro c hc
  rcases List.mem_append.mp hc with h | h
  · exact h1 c h
  · exact h2 c h

theorem marshalPayload_byte (p : Payload) : ∀ c ∈ marshalPayload p, c < 256 := by
  have k1 : ∀ c ∈ str "\x7b\"username\":", c < 256 := by decide
  have k2 : ∀ c ∈ str ",\"exp\":", c < 256 := by decide
  have k3 : ∀ c ∈ str ",\"iat\":", c < 256 := by decide
  have k4 : ∀ c ∈ str "\x7d", c < 256 := by decide
  have q : ∀ c ∈ appendString p.Username, c < 256 := by
    intro c hc
    unfold appendString at hc
    rcases List.mem_cons.mp hc with rfl | hc
    · omega
    · rcases List.mem_append.mp hc with h | h
      · exact appendStringBody_byte _ c h
      · simp at h; omega
  unfold marshalPayload
  exact bytes_append _ _ (bytes_append _ _ (bytes_append _ _ (bytes_append _ _
    (bytes_append _ _ (bytes_append _ _ k1 q) k2) (formatInt_byte _)) k3) (formatInt_byte _)) k4

end GoLogin

namespace GoLogin

/-! ## The token -/

theorem generateJWTWith_eq (key : List Nat) (now : Int) (username : List Nat) (duration : Int) :
    generateJWTWith key now username duration =
      .ok (headerEncoded ++ dot :: payloadEncoded now username duration ++
        dot :: createSignatureWith key headerEncoded (payloadEncoded now username duration)) :=
  rfl

theorem headerEncoded_eq : headerEncoded = str "eyJhbGciOiJIUzI1NiIsInR5cCI6IkpXVCJ9" := by
  decide

theorem split_token (key : List Nat) (now : Int) (username : List Nat) (duration : Int) :
    split dot (headerEncoded ++ dot :: payloadEncoded now username duration ++
        dot :: createSignatureWith key headerEncoded (payloadEncoded now username duration)) =
      [headerEncoded, payloadEncoded now username duration,
        createSignatureWith key headerEncoded (payloadEncoded now username duration)] :=
  split_three dot _ _ _ (dot_not_mem_base64URLEncode _) (dot_not_mem_base64URLEncode _)
    (dot_not_mem_createSignatureWith _ _ _)

theorem verifyJWTWith_of_split (key : List Nat) (now : Int) (token h p s : List Nat)
    (hs : split dot token = [h, p, s]) :
    verifyJWTWith key now token =
      if s ≠ createSignatureWith key h p then .error .signatureMismatch
      else
        match base64URLDecode p with
        | none => .error .payloadDecode
        | some payloadJSON =>
          match unmarshalPayload payloadJSON with
          | .error e => .error (.payloadParse e)
          | .ok payload => if unix now > payload.Exp then .error .expired else .ok payload := by
  unfold verifyJWTWith
  rw [hs]

theorem verifyJWTWith_signatureMismatch (key : List Nat) (now : Int) (token h p s : List Nat)
    (hs : split dot token = [h, p, s]) (hne : s ≠ createSignatureWith key h p) :
    verifyJWTWith key now token = .error .signatureMismatch := by
  rw [verifyJWTWith_of_split key now token h p s hs, if_pos hne]

theorem verifyJWTWith_ne_invalidFormat (key : List Nat) (now : Int) (token h p s : List Nat)
    (hs : split dot token = [h, p, s]) :
    verifyJWTWith key now token ≠ .error .invalidFormat := by
  rw [verifyJWTWith_of_split key now token h p s hs]
  split_ifs
  · simp
  · split
    · simp
    · split
      · simp
      · split_ifs <;> simp

theorem base64URLDecode_payloadEncoded (now : Int) (username : List Nat) (duration : Int) :
    base64URLDecode (payloadEncoded now username duration) =
      some (marshalPayload (issuedPayload now username duration)) :=
  base64URLDecode_encode _ (marshalPayload_byte _)

/-- What `verifyJWT` under the issuing key makes of an issued token: the
claims, the user name coerced to valid UTF-8, as long as the clock has not
passed `Exp`. -/
theorem verifyJWTWith_generated (key : List Nat) (now : Int) (username : List Nat)
    (duration now1 : Int) (hi : isInt64 (unix now)) (he : isInt64 (unix (now + duration))) :
    verifyJWTWith key now1
        (headerEncoded ++ dot :: payloadEncoded now username duration ++
          dot :: createSignatureWith key headerEncoded (payloadEncoded now username duration)) =
      if unix now1 > unix (now + duration) then .error .expired
      else .ok { Username := coerceUTF8 username, Exp := unix (now + duration), Iat := unix now } := by
  rw [verifyJWTWith_of_split key now1 _ _ _ _ (split_token key now username duration),
    base64URLDecode_payloadEncoded]
  simp only [ne_eq, not_true_eq_false, ↓reduceIte]
  rw [unmarshalPayload_marshalPayload _ he hi]
  rfl

end GoLogin

namespace GoLogin

theorem verifyJWTWith_invalidFormat_iff (key : List Nat) (now : Int) (token : List Nat) :
    verifyJWTWith key now token = .error .invalidFormat ↔ token.count dot ≠ 2 := by
  have hlen : token.count dot ≠ 2 ↔ (split dot token).length ≠ 3 := by
    rw [split_length]
    omega
  rw [hlen]
  constructor
  · intro hv hl
    obtain ⟨h, p, s, e⟩ := List.length_eq_three.mp hl
    exact verifyJWTWith_ne_invalidFormat key now token h p s e hv
  · intro hl
    unfold verifyJWTWith
    split
    · rename_i e
      rw [e] at hl
      simp at hl
    · rfl

theorem verifyJWTWith_ne_signatureMismatch (key : List Nat) (now : Int) (token h p s : List Nat)
    (hs : split dot token = [h, p, s]) (he : s = createSignatureWith key h p) :
    verifyJWTWith key now token ≠ .error .signatureMismatch := by
  rw [verifyJWTWith_of_split key now token h p s hs, if_neg (by simpa using he)]
  split
  · simp
  · split
    · simp
    · split_ifs <;> simp

theorem appendStringBody_replicate (n : Nat) :
    appendStringBody (List.replicate n 97) = List.replicate n 97 := by
  induction n with
  | zero => rfl
  | succ n ih =>
    rw [List.replicate_succ, appendStringBody_ascii _ _ (by decide), ih]
    rfl

theorem payloadEncoded_replicate_injective (now d : Int) (n m : Nat)
    (h : payloadEncoded now (List.replicate n 97) d = payloadEncoded now (List.replicate m 97) d) :
    n = m := by
  have hl := congrArg List.length h
  simp only [payloadEncoded, base64URLEncode_length, marshalPayload, issuedPayload, appendString,
    List.length_append, List.length_cons, appendStringBody_replicate, List.length_replicate] at hl
  omega

/-- The signatures are fewer than the payloads: two tokens issued for
different user names at the same time carry the same signature. -/
theorem signature_collision (key : List Nat) (now d : Int) :
    ∃ n m : Nat, n ≠ m ∧
      createSignatureWith key headerEncoded (payloadEncoded now (List.replicate n 97) d) =
        createSignatureWith key headerEncoded (payloadEncoded now (List.replicate m 97) d) := by
  let f : Nat → List Nat := fun n =>
    createSignatureWith key headerEncoded (payloadEncoded now (List.replicate n 97) d)
  let g : Nat → (Fin 43 → Fin 128) := fun n i =>
    ⟨(f n).getD i.val 0 % 128, Nat.mod_lt _ (by decide)⟩
  obtain ⟨n, m, hne, hg⟩ := Finite.exists_ne_map_eq_of_infinite g
  refine ⟨n, m, hne, ?_⟩
  have hlen : ∀ k, (f k).length = 43 := fun k => createSignatureWith_length _ _ _
  have hsmall : ∀ k, ∀ c ∈ f k, c < 128 := by
    intro k c hc
    have := base64URLEncode_alphabet _ c hc
    omega
  show f n = f m
  apply List.ext_getElem (by rw [hlen, hlen])
  intro i h1 h2
  have hi : i < 43 := by rw [hlen] at h1; exact h1
  have := congrArg (fun v => (v ⟨i, hi⟩).val) hg
  simp only [g, List.getD_eq_getElem _ _ h1, List.getD_eq_getElem _ _ h2] at this
  have a1 := hsmall n _ (List.getElem_mem h1)
  have a2 := hsmall m _ (List.getElem_mem h2)
  omega

end GoLogin

namespace GoLogin

/-! ## The claims -/

theorem unix_add_seconds (now d : Int) : unix (now + d * second) = unix now + d := by
  unfold unix second
  exact Int.add_mul_ediv_right now d (by decide)

/-- The token `generateJWT` returns, and what `verifyJWT` makes of it at a
clock reading `now1`, for a duration of `d` whole seconds. -/
theorem verifyJWT_generateJWT (now : Int) (s : List Nat) (d now1 : Int)
    (hi : isInt64 (unix now)) (he : isInt64 (unix now + d)) :
    ∃ token, generateJWT now s (d * second) = .ok token ∧
      verifyJWT now1 token =
        if unix now1 > unix now + d then .error .expired
        else .ok { Username := coerceUTF8 s, Exp := unix now + d, Iat := unix now } := by
  refine ⟨_, generateJWTWith_eq secretKey now s (d * second), ?_⟩
  have he1 : isInt64 (unix (now + d * second)) := by rw [unix_add_seconds]; exact he
  have := verifyJWTWith_generated secretKey now s (d * second) now1 hi he1
  rw [unix_add_seconds] at this
  exact this

/-- C1 (as amended). Round trip: for every username `s` that is valid UTF-8,
every clock reading `now` at issuance, with `t = unix now` seconds since the
epoch, and every whole number `d > 0` of seconds (`t` and `t + d` being
`int64` values), `generateJWT` returns a token, and `verifyJWT` applied to it
at any clock reading of the same second `t` succeeds and returns the payload
with `Username = s`, `Iat = t` and `Exp = t + d`. -/
theorem C1_round_trip (now : Int) (s : List Nat) (d now1 : Int) (hs : validUTF8 s = true)
    (hd : 0 < d) (hi : isInt64 (unix now)) (he : isInt64 (unix now + d))
    (h1 : unix now1 = unix now) :
    ∃ token, generateJWT now s (d * second) = .ok token ∧
      verifyJWT now1 token = .ok { Username := s, Exp := unix now + d, Iat := unix now } := by
  obtain ⟨token, hg, hv⟩ := verifyJWT_generateJWT now s d now1 hi he
  refine ⟨token, hg, ?_⟩
  rw [hv, if_neg (by omega), coerceUTF8_of_valid s hs]

/-- C1, witness: the user `taro`, issued at second 1700000000 for one hour. -/
theorem C1_round_trip_witness :
    validUTF8 (str "taro") = true ∧ (0 : Int) < 3600 ∧
      isInt64 (unix (1700000000 * second)) ∧ isInt64 (unix (1700000000 * second) + 3600) ∧
      unix (1700000000 * second + 5) = unix (1700000000 * second) ∧
      ∃ token, generateJWT (1700000000 * second) (str "taro") (3600 * second) = .ok token ∧
        verifyJWT (1700000000 * second + 5) token =
          .ok { Username := str "taro", Exp := unix (1700000000 * second) + 3600,
                Iat := unix (1700000000 * second) } :=
  ⟨by decide, by decide, by decide, by decide, by decide,
    C1_round_trip (1700000000 * second) (str "taro") 3600 (1700000000 * second + 5)
      (by decide) (by decide) (by decide) (by decide) (by decide)⟩

/-- C1, counterexample: the user name that is the single byte `0xFF`, not
valid UTF-8. `json.Marshal` writes it as the escape of `U+FFFD`, so the token
issued for it verifies, but the payload carries the three bytes `EF BF BD`
as `Username`, not the byte the token was issued for. -/
theorem C1_round_trip_counterexample :
    ∃ token, generateJWT (1700000000 * second) [255] (3600 * second) = .ok token ∧
      verifyJWT (1700000000 * second) token =
        .ok { Username := [239, 191, 189], Exp := 1700003600, Iat := 1700000000 } ∧
      verifyJWT (1700000000 * second) token ≠
        .ok { Username := [255], Exp := 1700003600, Iat := 1700000000 } := by
  obtain ⟨token, hg, hv⟩ := verifyJWT_generateJWT (1700000000 * second) [255] 3600
    (1700000000 * second) (by decide) (by decide)
  have e : verifyJWT (1700000000 * second) token =
      .ok { Username := [239, 191, 189], Exp := 1700003600, Iat := 1700000000 } := by
    rw [hv]
    decide
  refine ⟨token, hg, e, ?_⟩
  rw [e]
  decide

/-- C2. The expiry boundary is inclusive: for every username `s`, clock
reading `now` at issuance with `t = unix now`, and whole number `d` of
seconds, positive or not (`t` and `t + d` being `int64` values), the token
that `generateJWT`
returns is accepted by `verifyJWT` at every clock reading whose second is at
most `t + d`, the second `t + d` itself included, and is rejected with the
expired-token error at every clock reading whose second is greater. -/
theorem C2_expiry_boundary (now : Int) (s : List Nat) (d : Int)
    (hi : isInt64 (unix now)) (he : isInt64 (unix now + d)) :
    ∃ token, generateJWT now s (d * second) = .ok token ∧
      (∀ now1, unix now1 ≤ unix now + d →
        verifyJWT now1 token =
          .ok { Username := coerceUTF8 s, Exp := unix now + d, Iat := unix now }) ∧
      (∀ now1, unix now + d < unix now1 → verifyJWT now1 token = .error .expired) ∧
      verifyJWT ((unix now + d) * second) token =
        .ok { Username := coerceUTF8 s, Exp := unix now + d, Iat := unix now } ∧
      verifyJWT ((unix now + d + 1) * second) token = .error .expired := by
  have hu : ∀ x : Int, unix (x * second) = x := by
    intro x
    unfold unix second
    exact Int.mul_ediv_cancel x (by decide)
  refine ⟨_, generateJWTWith_eq secretKey now s (d * second), ?_, ?_, ?_, ?_⟩
  · intro now1 h1
    obtain ⟨token, hg, hv⟩ := verifyJWT_generateJWT now s d now1 hi he
    rw [generateJWT, generateJWTWith_eq] at hg
    cases hg
    rw [hv, if_neg (by omega)]
  · intro now1 h1
    obtain ⟨token, hg, hv⟩ := verifyJWT_generateJWT now s d now1 hi he
    rw [generateJWT, generateJWTWith_eq] at hg
    cases hg
    rw [hv, if_pos (by omega)]
  · obtain ⟨token, hg, hv⟩ := verifyJWT_generateJWT now s d ((unix now + d) * second) hi he
    rw [generateJWT, generateJWTWith_eq] at hg
    cases hg
    rw [hv, if_neg (by rw [hu]; omega)]
  · obtain ⟨token, hg, hv⟩ := verifyJWT_generateJWT now s d ((unix now + d + 1) * second) hi he
    rw [generateJWT, generateJWTWith_eq] at hg
    cases hg
    rw [hv, if_pos (by rw [hu]; omega)]

/-- C2, witness: the user `taro`, issued at second 1700000000 for one hour. -/
theorem C2_expiry_boundary_witness :
    isInt64 (unix (1700000000 * second)) ∧
      isInt64 (unix (1700000000 * second) + 3600) ∧
      ∃ token, generateJWT (1700000000 * second) (str "taro") (3600 * second) = .ok token ∧
        (∀ now1, unix now1 ≤ unix (1700000000 * second) + 3600 →
          verifyJWT now1 token =
            .ok { Username := coerceUTF8 (str "taro"), Exp := unix (1700000000 * second) + 3600,
                  Iat := unix (1700000000 * second) }) ∧
        (∀ now1, unix (1700000000 * second) + 3600 < unix now1 →
          verifyJWT now1 token = .error .expired) ∧
        verifyJWT ((unix (1700000000 * second) + 3600) * second) token =
          .ok { Username := coerceUTF8 (str "taro"), Exp := unix (1700000000 * second) + 3600,
                Iat := unix (1700000000 * second) } ∧
        verifyJWT ((unix (1700000000 * second) + 3600 + 1) * second) token = .error .expired :=
  ⟨by decide, by decide,
    C2_expiry_boundary (1700000000 * second) (str "taro") 3600 (by decide) (by decide)⟩

/-- C3. The signature check is a hard gate before the claims are decoded:
for every token that splits on `.` into exactly three parts whose third part
differs from `createSignature(part1, part2)`, `verifyJWT` fails with the
invalid-signature error at every clock reading, whatever the second part
holds; so it fails with no decoding, parsing or expiry error. -/
theorem C3_signature_gate (now : Int) (token h p s : List Nat)
    (hs : split dot token = [h, p, s]) (hne : s ≠ createSignature h p) :
    verifyJWT now token = .error .signatureMismatch ∧
      verifyJWT now token ≠ .error .payloadDecode ∧
      (∀ e, verifyJWT now token ≠ .error (.payloadParse e)) ∧
      verifyJWT now token ≠ .error .expired := by
  have e : verifyJWT now token = .error .signatureMismatch :=
    verifyJWTWith_signatureMismatch secretKey now token h p s hs hne
  rw [e]
  simp

/-- C3, witness: the token `a.!.c`, whose second part is not base64url and
whose third part, one byte long, is not the signature of 43 bytes. -/
theorem C3_signature_gate_witness :
    split dot (str "a.!.c") = [str "a", str "!", str "c"] ∧
      str "c" ≠ createSignature (str "a") (str "!") ∧
      verifyJWT 0 (str "a.!.c") = .error .signatureMismatch ∧
      verifyJWT 0 (str "a.!.c") ≠ .error .payloadDecode ∧
      (∀ e, verifyJWT 0 (str "a.!.c") ≠ .error (.payloadParse e)) ∧
      verifyJWT 0 (str "a.!.c") ≠ .error .expired :=
  have hne : str "c" ≠ createSignature (str "a") (str "!") := fun e =>
    absurd (congrArg List.length e)
      (by rw [createSignature, createSignatureWith_length]; decide)
  ⟨by decide, hne, C3_signature_gate 0 (str "a.!.c") (str "a") (str "!") (str "c") (by decide) hne⟩

/-- C4, counterexample. First, a single flipped bit that yields a `.`: in
the token issued for `taro` the claims segment has the byte `n` (110) at
index 17, and flipping its bit of value 64 gives `.` (46); the tampered
token then has four parts, and `verifyJWT` fails with the malformed-format
error, not the invalid-signature error. Second, the claim for every other
segment free of `.` cannot hold either: signatures are 43 bytes of a 64
letter alphabet and claims segments are unbounded, so some tampered segment
carries the signature of the token. -/
theorem C4_tamper_detection_counterexample :
    ((payloadEncoded (1700000000 * second) (str "taro") (3600 * second)).get? 17 = some 110 ∧
      110 ^^^ 64 = 46 ∧
      (payloadEncoded (1700000000 * second) (str "taro") (3600 * second)).set 17 46 ≠
        payloadEncoded (1700000000 * second) (str "taro") (3600 * second) ∧
      verifyJWT (1700000000 * second)
          (headerEncoded ++ dot ::
            (payloadEncoded (1700000000 * second) (str "taro") (3600 * second)).set 17 46 ++
            dot :: createSignature headerEncoded
              (payloadEncoded (1700000000 * second) (str "taro") (3600 * second))) =
        .error .invalidFormat) ∧
    ¬ (∀ (now : Int) (s : List Nat) (d now1 : Int) (seg2 : List Nat), 0 < d →
        seg2 ≠ payloadEncoded now s (d * second) → dot ∉ seg2 →
        verifyJWT now1 (headerEncoded ++ dot :: seg2 ++
          dot :: createSignature headerEncoded (payloadEncoded now s (d * second))) =
          .error .signatureMismatch) := by
  have hp : payloadEncoded (1700000000 * second) (str "taro") (3600 * second) =
      str "eyJ1c2VybmFtZSI6InRhcm8iLCJleHAiOjE3MDAwMDM2MDAsImlhdCI6MTcwMDAwMDAwMH0" := by
    decide
  refine ⟨⟨by rw [hp]; decide, by decide, by rw [hp]; decide, ?_⟩, ?_⟩
  · apply (verifyJWTWith_invalidFormat_iff secretKey _ _).mpr
    have h1 : List.count dot headerEncoded = 0 :=
      List.count_eq_zero.mpr (dot_not_mem_base64URLEncode _)
    have h2 : List.count dot (createSignature headerEncoded
        (payloadEncoded (1700000000 * second) (str "taro") (3600 * second))) = 0 :=
      List.count_eq_zero.mpr (dot_not_mem_createSignatureWith _ _ _)
    have h3 : List.count dot
        ((payloadEncoded (1700000000 * second) (str "taro") (3600 * second)).set 17 46) = 1 := by
      rw [hp]; decide
    rw [List.count_append, List.count_cons_self, List.count_append, List.count_cons_self, h1, h2,
      h3]
    decide
  · intro hall
    obtain ⟨n, m, hne, hsig⟩ := signature_collision secretKey 0 (1 * second)
    have hseg : payloadEncoded 0 (List.replicate m 97) (1 * second) ≠
        payloadEncoded 0 (List.replicate n 97) (1 * second) := fun e =>
      hne (payloadEncoded_replicate_injective 0 (1 * second) m n e).symm
    have hbad := hall 0 (List.replicate n 97) 1 0
      (payloadEncoded 0 (List.replicate m 97) (1 * second)) (by decide) hseg
      (dot_not_mem_base64URLEncode _)
    exact verifyJWTWith_ne_signatureMismatch secretKey 0 _ headerEncoded
      (payloadEncoded 0 (List.replicate m 97) (1 * second)) _
      (split_three dot _ _ _ (dot_not_mem_base64URLEncode _) (dot_not_mem_base64URLEncode _)
        (dot_not_mem_createSignatureWith _ _ _)) hsig hbad

/-- C4 (as amended). Tamper detection: for every token
`seg1.seg2.seg3` that `generateJWT` returns and every replacement of `seg2`
that holds no `.` and whose signature under the key differs from `seg3`
(every replacement but a collision of the HMAC), `verifyJWT` fails on
`seg1.replacement.seg3` with the invalid-signature error at every clock
reading. -/
theorem C4_tamper_detection (now : Int) (s : List Nat) (d now1 : Int) (seg2 : List Nat)
    (hdot : dot ∉ seg2)
    (hsig : createSignature headerEncoded seg2 ≠
      createSignature headerEncoded (payloadEncoded now s d)) :
    generateJWT now s d =
        .ok (headerEncoded ++ dot :: payloadEncoded now s d ++
          dot :: createSignature headerEncoded (payloadEncoded now s d)) ∧
      verifyJWT now1 (headerEncoded ++ dot :: seg2 ++
          dot :: createSignature headerEncoded (payloadEncoded now s d)) =
        .error .signatureMismatch :=
  ⟨generateJWTWith_eq secretKey now s d,
    verifyJWTWith_signatureMismatch secretKey now1 _ headerEncoded seg2 _
      (split_three dot _ _ _ (dot_not_mem_base64URLEncode _) hdot
        (dot_not_mem_createSignatureWith _ _ _)) (fun e => hsig e.symm)⟩

set_option maxRecDepth 100000 in
/-- The signature of the demo's tampered payload is not the signature of the
token issued for `taro`: both tags computed. -/
theorem demo_tampered_signature_ne :
    createSignature headerEncoded (base64URLEncode
        (str "\x7b\"username\":\"admin\",\"exp\":9999999999,\"iat\":1234567890\x7d")) ≠
      createSignature headerEncoded
        (payloadEncoded (1700000000 * second) (str "taro") (3600 * second)) := by
  decide

/-- C4, witness: the tampered payload of the demo, with `admin` in place of
`taro`, under the signature of the token issued for `taro`. -/
theorem C4_tamper_detection_witness :
    dot ∉ base64URLEncode
        (str "\x7b\"username\":\"admin\",\"exp\":9999999999,\"iat\":1234567890\x7d") ∧
      createSignature headerEncoded (base64URLEncode
          (str "\x7b\"username\":\"admin\",\"exp\":9999999999,\"iat\":1234567890\x7d")) ≠
        createSignature headerEncoded
          (payloadEncoded (1700000000 * second) (str "taro") (3600 * second)) ∧
      generateJWT (1700000000 * second) (str "taro") (3600 * second) =
        .ok (headerEncoded ++ dot ::
          payloadEncoded (1700000000 * second) (str "taro") (3600 * second) ++
          dot :: createSignature headerEncoded
            (payloadEncoded (1700000000 * second) (str "taro") (3600 * second))) ∧
      verifyJWT (1700000000 * second) (headerEncoded ++ dot :: base64URLEncode
          (str "\x7b\"username\":\"admin\",\"exp\":9999999999,\"iat\":1234567890\x7d") ++
          dot :: createSignature headerEncoded
            (payloadEncoded (1700000000 * second) (str "taro") (3600 * second))) =
        .error .signatureMismatch :=
  ⟨by decide, demo_tampered_signature_ne,
    C4_tamper_detection (1700000000 * second) (str "taro") (3600 * second)
      (1700000000 * second) _ (by decide) demo_tampered_signature_ne⟩

/-- C5. Malformed input: `verifyJWT` fails with the malformed-format error,
at every clock reading, exactly for the tokens that do not hold exactly two
`.` bytes, that is, that do not split on `.` into exactly three parts;
`onlyonepart` and `a.b` are among them. -/
theorem C5_malformed_input (now : Int) :
    (∀ token, verifyJWT now token = .error .invalidFormat ↔ token.count dot ≠ 2) ∧
      (∀ token, token.count dot ≠ 2 ↔ (split dot token).length ≠ 3) ∧
      verifyJWT now (str "onlyonepart") = .error .invalidFormat ∧
      verifyJWT now (str "a.b") = .error .invalidFormat := by
  have hlen : ∀ token, token.count dot ≠ 2 ↔ (split dot token).length ≠ 3 := by
    intro token
    rw [split_length]
    omega
  have key : ∀ token, verifyJWT now token = .error .invalidFormat ↔ token.count dot ≠ 2 :=
    fun token => verifyJWTWith_invalidFormat_iff secretKey now token
  exact ⟨key, hlen, (key _).mpr (by decide), (key _).mpr (by decide)⟩

/-- C6, counterexample: the token `a..c` splits into three parts, the second
of them empty, and `verifyJWT` fails on it with the invalid-signature error,
not with the malformed-format error. -/
theorem C6_empty_segment_counterexample :
    split dot (str "a..c") = [str "a", [], str "c"] ∧
      verifyJWT 0 (str "a..c") = .error .signatureMismatch ∧
      verifyJWT 0 (str "a..c") ≠ .error .invalidFormat := by
  have hne : str "c" ≠ createSignature (str "a") [] := fun e =>
    absurd (congrArg List.length e)
      (by rw [createSignature, createSignatureWith_length]; decide)
  have e := verifyJWTWith_signatureMismatch secretKey 0 (str "a..c") (str "a") [] (str "c")
    (by decide) hne
  refine ⟨by decide, e, ?_⟩
  rw [verifyJWT, e]
  simp

/-- C6 (as amended). A token that splits on `.` into exactly three parts is
never reported as malformed, also when some of the parts are empty:
`verifyJWT` checks the number of parts only. Such a token fails with the
invalid-signature error whenever its third part differs from
`createSignature(part1, part2)`, which is always so when the third part is
empty; and with an empty second part under the matching signature it fails
with the payload-parse error. -/
theorem C6_empty_segment (now : Int) (token h p s : List Nat)
    (hs : split dot token = [h, p, s]) :
    verifyJWT now token ≠ .error .invalidFormat ∧
      (s ≠ createSignature h p → verifyJWT now token = .error .signatureMismatch) ∧
      (s = [] → verifyJWT now token = .error .signatureMismatch) ∧
      (p = [] → s = createSignature h p →
        verifyJWT now token = .error (.payloadParse .malformed)) := by
  refine ⟨verifyJWTWith_ne_invalidFormat secretKey now token h p s hs,
    verifyJWTWith_signatureMismatch secretKey now token h p s hs, ?_, ?_⟩
  · intro e
    apply verifyJWTWith_signatureMismatch secretKey now token h p s hs
    intro e2
    have := congrArg List.length e2
    rw [createSignatureWith_length, e] at this
    simp at this
  · intro ep es
    rw [verifyJWT, verifyJWTWith_of_split secretKey now token h p s hs, if_neg (by simpa using es),
      ep]
    rfl

/-- C6, witness: the token `..`, three empty parts. -/
theorem C6_empty_segment_witness :
    split dot (str "..") = [[], [], []] ∧
      verifyJWT 0 (str "..") ≠ .error .invalidFormat ∧
      (([] : List Nat) ≠ createSignature [] [] →
        verifyJWT 0 (str "..") = .error .signatureMismatch) ∧
      (([] : List Nat) = [] → verifyJWT 0 (str "..") = .error .signatureMismatch) ∧
      (([] : List Nat) = [] → ([] : List Nat) = createSignature [] [] →
        verifyJWT 0 (str "..") = .error (.payloadParse .malformed)) :=
  ⟨by decide, C6_empty_segment 0 (str "..") [] [] [] (by decide)⟩

/-- The three segments of an issued token and the claims its second segment
carries, read back the way `verifyJWT` reads them. -/
theorem generated_claims (key : List Nat) (now : Int) (s : List Nat) (d : Int)
    (hi : isInt64 (unix now)) (he : isInt64 (unix (now + d))) :
    ∃ token h p sig, generateJWTWith key now s d = .ok token ∧ split dot token = [h, p, sig] ∧
      (base64URLDecode p).map unmarshalPayload =
        some (.ok { Username := coerceUTF8 s, Exp := unix (now + d), Iat := unix now }) := by
  refine ⟨_, _, _, _, generateJWTWith_eq key now s d, split_token key now s d, ?_⟩
  rw [base64URLDecode_payloadEncoded, Option.map_some', unmarshalPayload_marshalPayload _ he hi]
  rfl

/-- C7, counterexample: issued for minus one hour, as the demo does to make
an expired token, `generateJWT` returns a token and no error, and the claims
of the token have `Exp` one hour before `Iat`. -/
theorem C7_invalid_ttl_counterexample :
    ∃ token h p sig,
      generateJWT (1700000000 * second) (str "taro") (-3600 * second) = .ok token ∧
      split dot token = [h, p, sig] ∧
      (base64URLDecode p).map unmarshalPayload =
        some (.ok { Username := str "taro", Exp := 1699996400, Iat := 1700000000 }) ∧
      ¬ ((1699996400 : Int) > 1700000000) := by
  obtain ⟨token, h, p, sig, hg, hs, hc⟩ := generated_claims secretKey (1700000000 * second)
    (str "taro") (-3600 * second) (by decide) (by decide)
  refine ⟨token, h, p, sig, hg, hs, ?_, by decide⟩
  rw [hc]
  decide

/-- C7 (as amended). `generateJWT` has no invalid-TTL error: it fails for no
username, clock reading and duration, positive, zero or negative. For a
whole number `d` of seconds the token it returns carries the claims
`Iat = unix now` and `Exp = unix now + d` (both taken to be `int64`
values), so `Exp` is greater than `Iat` exactly when `d > 0`. -/
theorem C7_invalid_ttl (now : Int) (s : List Nat) (d : Int)
    (hi : isInt64 (unix now)) (he : isInt64 (unix now + d)) :
    (∀ duration e, generateJWT now s duration ≠ .error e) ∧
      ∃ token h p sig, generateJWT now s (d * second) = .ok token ∧
        split dot token = [h, p, sig] ∧
        (base64URLDecode p).map unmarshalPayload =
          some (.ok { Username := coerceUTF8 s, Exp := unix now + d, Iat := unix now }) ∧
        (unix now + d > unix now ↔ 0 < d) := by
  constructor
  · intro duration e h
    rw [generateJWT, generateJWTWith_eq] at h
    cases h
  · have he1 : isInt64 (unix (now + d * second)) := by rw [unix_add_seconds]; exact he
    obtain ⟨token, h, p, sig, hg, hs, hc⟩ := generated_claims secretKey now s (d * second) hi he1
    rw [unix_add_seconds] at hc
    exact ⟨token, h, p, sig, hg, hs, hc, by omega⟩

/-- C7, witness: the user `taro`, issued at second 1700000000 for zero
seconds. -/
theorem C7_invalid_ttl_witness :
    isInt64 (unix (1700000000 * second)) ∧ isInt64 (unix (1700000000 * second) + 0) ∧
      (∀ duration e, generateJWT (1700000000 * second) (str "taro") duration ≠ .error e) ∧
      ∃ token h p sig,
        generateJWT (1700000000 * second) (str "taro") (0 * second) = .ok token ∧
        split dot token = [h, p, sig] ∧
        (base64URLDecode p).map unmarshalPayload =
          some (.ok { Username := coerceUTF8 (str "taro"),
                      Exp := unix (1700000000 * second) + 0,
                      Iat := unix (1700000000 * second) }) ∧
        (unix (1700000000 * second) + 0 > unix (1700000000 * second) ↔ (0 : Int) < 0) :=
  ⟨by decide, by decide,
    C7_invalid_ttl (1700000000 * second) (str "taro") 0 (by decide) (by decide)⟩

/-- C8, counterexample: the keys `a` and `a` followed by a zero byte differ,
but HMAC fills a short key with zeros up to its block, so the two give the
same signature: the token issued under the first verifies under the
second. -/
theorem C8_key_mismatch_counterexample :
    ([97] : List Nat) ≠ [97, 0] ∧
      ∃ token, generateJWTWith [97] (1700000000 * second) (str "taro") (3600 * second) =
          .ok token ∧
        verifyJWTWith [97, 0] (1700000000 * second) token =
          .ok { Username := str "taro", Exp := 1700003600, Iat := 1700000000 } := by
  refine ⟨by decide, _, generateJWTWith_eq _ _ _ _, ?_⟩
  rw [← createSignatureWith_zero_padded,
    verifyJWTWith_generated [97, 0] (1700000000 * second) (str "taro") (3600 * second)
      (1700000000 * second) (by decide) (by decide)]
  decide

/-- C8 (as amended). Key mismatch: for keys `K1`, `K2` under which the
first two segments of a token issued under `K1` get different signatures
(all pairs of keys but collisions of the HMAC, and but keys that HMAC brings
to the same block, such as a short key and the same key followed by zero
bytes), `verifyJWT` under `K2` rejects the token with the invalid-signature
error at every clock reading. -/
theorem C8_key_mismatch (K1 K2 : List Nat) (now : Int) (s : List Nat) (d now1 : Int)
    (hsig : createSignatureWith K2 headerEncoded (payloadEncoded now s d) ≠
      createSignatureWith K1 headerEncoded (payloadEncoded now s d)) :
    ∃ token, generateJWTWith K1 now s d = .ok token ∧
      verifyJWTWith K2 now1 token = .error .signatureMismatch :=
  ⟨_, generateJWTWith_eq K1 now s d,
    verifyJWTWith_signatureMismatch K2 now1 _ _ _ _ (split_token K1 now s d)
      (fun e => hsig e.symm)⟩

set_option maxRecDepth 100000 in
/-- The key of the repository and the key `another-key` sign the token issued
for `taro` differently: both tags computed. -/
theorem another_key_signature_ne :
    createSignatureWith (str "another-key") headerEncoded
        (payloadEncoded (1700000000 * second) (str "taro") (3600 * second)) ≠
      createSignatureWith secretKey headerEncoded
        (payloadEncoded (1700000000 * second) (str "taro") (3600 * second)) := by
  decide

/-- C8, witness: issued under the key of the repository, verified under
`another-key`. -/
theorem C8_key_mismatch_witness :
    createSignatureWith (str "another-key") headerEncoded
        (payloadEncoded (1700000000 * second) (str "taro") (3600 * second)) ≠
      createSignatureWith secretKey headerEncoded
        (payloadEncoded (1700000000 * second) (str "taro") (3600 * second)) ∧
      ∃ token, generateJWTWith secretKey (1700000000 * second) (str "taro") (3600 * second) =
          .ok token ∧
        verifyJWTWith (str "another-key") (1700000000 * second) token =
          .error .signatureMismatch :=
  ⟨another_key_signature_ne,
    C8_key_mismatch secretKey (str "another-key") (1700000000 * second) (str "taro")
      (3600 * second) (1700000000 * second) another_key_signature_ne⟩

end GoLogin

namespace GoLogin

theorem marshalHeader_eq :
    marshalHeader { Alg := str "HS256", Typ := str "JWT" } =
      str "\x7b\"alg\":\"HS256\",\"typ\":\"JWT\"\x7d" := by
  decide

theorem marshalPayload_ne_nil (p : Payload) : marshalPayload p ≠ [] := by
  have k1 : str "\x7b\"username\":" = [123, 34, 117, 115, 101, 114, 110, 97, 109, 101, 34, 58] := by
    decide
  unfold marshalPayload
  rw [k1]
  simp

theorem pad_not_mem_base64URLEncode (bs : List Nat) : 61 ∉ base64URLEncode bs := by
  intro h
  have := base64URLEncode_alphabet bs 61 h
  omega

/-- C9. Wire format: for every username, clock reading and duration the
token `generateJWT` returns is `h.p.sig`, where `h` is the padding-free
base64url form of the JSON text of the header (the constant
`eyJhbGciOiJIUzI1NiIsInR5cCI6IkpXVCJ9`), `p` is the padding-free base64url
form of the JSON text of the claims, and `sig` is the padding-free base64url
form of the HMAC-SHA256 tag of `h.p` under the secret key; so the token holds
exactly two `.` bytes, three segments none of which is empty, and no `=`. -/
theorem C9_wire_format (now : Int) (s : List Nat) (d : Int) :
    ∃ token h p sig, generateJWT now s d = .ok token ∧
      token = h ++ dot :: p ++ dot :: sig ∧
      sig = base64URLEncode (hmacSHA256 secretKey (h ++ dot :: p)) ∧
      h = base64URLEncode (str "\x7b\"alg\":\"HS256\",\"typ\":\"JWT\"\x7d") ∧
      h = str "eyJhbGciOiJIUzI1NiIsInR5cCI6IkpXVCJ9" ∧
      p = base64URLEncode
        (marshalPayload { Username := s, Exp := unix (now + d), Iat := unix now }) ∧
      token.count dot = 2 ∧ split dot token = [h, p, sig] ∧
      h ≠ [] ∧ p ≠ [] ∧ sig ≠ [] ∧ 61 ∉ token := by
  have hsplit := split_token secretKey now s d
  have hcount : (headerEncoded ++ dot :: payloadEncoded now s d ++
      dot :: createSignatureWith secretKey headerEncoded (payloadEncoded now s d)).count dot =
      2 := by
    have := split_length dot (headerEncoded ++ dot :: payloadEncoded now s d ++
      dot :: createSignatureWith secretKey headerEncoded (payloadEncoded now s d))
    rw [hsplit] at this
    simp only [List.length_cons, List.length_nil] at this
    omega
  refine ⟨_, headerEncoded, payloadEncoded now s d,
    createSignatureWith secretKey headerEncoded (payloadEncoded now s d),
    generateJWTWith_eq secretKey now s d, rfl, rfl, ?_, headerEncoded_eq, rfl, hcount, hsplit,
    ?_, ?_, ?_, ?_⟩
  · rw [headerEncoded, marshalHeader_eq]
  · rw [headerEncoded_eq]; decide
  · exact base64URLEncode_ne_nil _ (marshalPayload_ne_nil _)
  · intro e
    have := createSignatureWith_length secretKey headerEncoded (payloadEncoded now s d)
    rw [e] at this
    simp at this
  · intro hm
    rcases List.mem_append.mp hm with hm | hm
    · rcases List.mem_append.mp hm with hm | hm
      · exact pad_not_mem_base64URLEncode _ hm
      · rcases List.mem_cons.mp hm with hm | hm
        · exact absurd hm (by decide)
        · exact pad_not_mem_base64URLEncode _ hm
    · rcases List.mem_cons.mp hm with hm | hm
      · exact absurd hm (by decide)
      · exact pad_not_mem_base64URLEncode _ hm

theorem appendStringBody_alnum (s : List Nat)
    (hs : ∀ c ∈ s, (48 ≤ c ∧ c ≤ 57) ∨ (65 ≤ c ∧ c ≤ 90) ∨ (97 ≤ c ∧ c ≤ 122)) :
    appendStringBody s = s := by
  induction s with
  | nil => rfl
  | cons b rest ih =>
    have hb := hs b (by simp)
    rw [appendStringBody_ascii _ _ (by omega), ih (fun c hc => hs c (by simp [hc]))]
    have : escapeASCII b = [b] := by
      unfold escapeASCII
      split_ifs <;> first | rfl | omega
    rw [this]
    rfl

/-- The JSON text that the second segment of an issued token decodes to. -/
theorem decoded_claims_segment (key : List Nat) (now : Int) (s : List Nat) (d : Int)
    (hs : ∀ c ∈ s, (48 ≤ c ∧ c ≤ 57) ∨ (65 ≤ c ∧ c ≤ 90) ∨ (97 ≤ c ∧ c ≤ 122)) :
    ∃ token h p sig, generateJWTWith key now s d = .ok token ∧ split dot token = [h, p, sig] ∧
      base64URLDecode p =
        some (str "\x7b\"username\":\"" ++ s ++ str "\",\"exp\":" ++ formatInt (unix (now + d)) ++
          str ",\"iat\":" ++ formatInt (unix now) ++ str "\x7d") := by
  refine ⟨_, _, _, _, generateJWTWith_eq key now s d, split_token key now s d, ?_⟩
  rw [base64URLDecode_payloadEncoded]
  have k1 : str "\x7b\"username\":" = [123, 34, 117, 115, 101, 114, 110, 97, 109, 101, 34, 58] := by
    decide
  have k2 : str "\x7b\"username\":\"" =
      [123, 34, 117, 115, 101, 114, 110, 97, 109, 101, 34, 58, 34] := by decide
  have k3 : str ",\"exp\":" = [44, 34, 101, 120, 112, 34, 58] := by decide
  have k4 : str "\",\"exp\":" = [34, 44, 34, 101, 120, 112, 34, 58] := by decide
  simp only [marshalPayload, issuedPayload, appendString, appendStringBody_alnum s hs, k1, k2, k3,
    k4]
  simp

/-- C10, counterexample: for `taro`, issued at second 1700000000 for 3600
seconds, the second segment decodes to the JSON text with `exp` before
`iat`, the order of the fields of `Payload`, which is not the text with
`iat` before `exp`. -/
theorem C10_claims_serialization_counterexample :
    ∃ token h p sig,
      generateJWT (1700000000 * second) (str "taro") (3600 * second) = .ok token ∧
      split dot token = [h, p, sig] ∧
      base64URLDecode p =
        some (str "\x7b\"username\":\"taro\",\"exp\":1700003600,\"iat\":1700000000\x7d") ∧
      base64URLDecode p ≠
        some (str "\x7b\"username\":\"taro\",\"iat\":1700000000,\"exp\":1700003600\x7d") := by
  obtain ⟨token, h, p, sig, hg, hsp, hd⟩ := decoded_claims_segment secretKey
    (1700000000 * second) (str "taro") (3600 * second) (by decide)
  have e : base64URLDecode p =
      some (str "\x7b\"username\":\"taro\",\"exp\":1700003600,\"iat\":1700000000\x7d") := by
    rw [hd]; decide
  refine ⟨token, h, p, sig, hg, hsp, e, ?_⟩
  rw [e]
  decide

/-- C10 (as amended). Claims serialization: for every username `s` of ASCII
letters and digits, clock reading and duration, the second segment of the
token `generateJWT` returns decodes from base64url to exactly the JSON text
with the keys `username`, `exp`, `iat` in this order, the order of the
fields of `Payload`: the username between quotes, `Exp` and `Iat` in
decimal. -/
theorem C10_claims_serialization (now : Int) (s : List Nat) (d : Int)
    (hs : ∀ c ∈ s, (48 ≤ c ∧ c ≤ 57) ∨ (65 ≤ c ∧ c ≤ 90) ∨ (97 ≤ c ∧ c ≤ 122)) :
    ∃ token h p sig, generateJWT now s d = .ok token ∧ split dot token = [h, p, sig] ∧
      base64URLDecode p =
        some (str "\x7b\"username\":\"" ++ s ++ str "\",\"exp\":" ++ formatInt (unix (now + d)) ++
          str ",\"iat\":" ++ formatInt (unix now) ++ str "\x7d") :=
  decoded_claims_segment secretKey now s d hs

/-- C10, witness: `taro`, issued at second 1700000000 for 3600 seconds; the
text is the one of the demo with `exp` before `iat`. -/
theorem C10_claims_serialization_witness :
    (∀ c ∈ str "taro", (48 ≤ c ∧ c ≤ 57) ∨ (65 ≤ c ∧ c ≤ 90) ∨ (97 ≤ c ∧ c ≤ 122)) ∧
      (∃ token h p sig,
        generateJWT (1700000000 * second) (str "taro") (3600 * second) = .ok token ∧
        split dot token = [h, p, sig] ∧
        base64URLDecode p =
          some (str "\x7b\"username\":\"" ++ str "taro" ++ str "\",\"exp\":" ++
            formatInt (unix (1700000000 * second + 3600 * second)) ++
            str ",\"iat\":" ++ formatInt (unix (1700000000 * second)) ++ str "\x7d")) ∧
      str "\x7b\"username\":\"" ++ str "taro" ++ str "\",\"exp\":" ++
          formatInt (unix (1700000000 * second + 3600 * second)) ++
          str ",\"iat\":" ++ formatInt (unix (1700000000 * second)) ++ str "\x7d" =
        str "\x7b\"username\":\"taro\",\"exp\":1700003600,\"iat\":1700000000\x7d" :=
  ⟨by decide,
    C10_claims_serialization (1700000000 * second) (str "taro") (3600 * second) (by decide),
    by decide⟩

end GoLogin

namespace GoLogin

/-! ## Tokens signed over arbitrary segments -/

/-- What `verifyJWT` makes of `h.p.sig` when `sig` is the signature of `h.p`:
the signature gate is passed, and the result is that of decoding `p`. -/
theorem verifyJWTWith_signed (key : List Nat) (now : Int) (h p : List Nat)
    (hh : dot ∉ h) (hp : dot ∉ p) :
    verifyJWTWith key now (h ++ dot :: p ++ dot :: createSignatureWith key h p) =
      match base64URLDecode p with
      | none => .error .payloadDecode
      | some payloadJSON =>
        match unmarshalPayload payloadJSON with
        | .error e => .error (.payloadParse e)
        | .ok payload => if unix now > payload.Exp then .error .expired else .ok payload := by
  have e := verifyJWTWith_of_split key now _ h p _
    (split_three dot h p _ hh hp (dot_not_mem_createSignatureWith key h p))
  rw [if_neg (not_not.mpr rfl)] at e
  exact e

theorem decodeQuanta_isSome : ∀ l : List Nat, (decodeQuanta l).isSome = isRawBase64URL l
  | [] => rfl
  | [a] => by simp [decodeQuanta, isRawBase64URL]
  | [a, b] => by
    simp only [decodeQuanta, isRawBase64URL, isB64Char, List.all_cons, List.all_nil,
      List.length_cons, List.length_nil]
    cases b64Val a <;> cases b64Val b <;> rfl
  | [a, b, c] => by
    simp only [decodeQuanta, isRawBase64URL, isB64Char, List.all_cons, List.all_nil,
      List.length_cons, List.length_nil]
    cases b64Val a <;> cases b64Val b <;> cases b64Val c <;> rfl
  | a :: b :: c :: d :: rest => by
    have ih := decodeQuanta_isSome rest
    have hl : ((a :: b :: c :: d :: rest).length % 4 != 1) = (rest.length % 4 != 1) := by
      simp only [List.length_cons]
      congr 1
      omega
    have e : isRawBase64URL (a :: b :: c :: d :: rest) =
        ((b64Val a).isSome && ((b64Val b).isSome && ((b64Val c).isSome &&
          ((b64Val d).isSome && isRawBase64URL rest)))) := by
      simp only [isRawBase64URL, List.all_cons, isB64Char, hl, Bool.and_assoc]
    rw [e, ← ih]
    simp only [decodeQuanta]
    cases b64Val a <;> cases b64Val b <;> cases b64Val c <;> cases b64Val d <;>
      cases decodeQuanta rest <;> rfl

/-- The decoder accepts exactly the strings that, once `\r` and `\n` are
dropped, are valid padding-free base64url. -/
theorem base64URLDecode_isSome (s : List Nat) :
    (base64URLDecode s).isSome = isRawBase64URL (s.filter (fun c => c ≠ 10 ∧ c ≠ 13)) :=
  decodeQuanta_isSome _

theorem base64URLDecode_append_newline (s : List Nat) :
    base64URLDecode (s ++ [10]) = base64URLDecode s := by
  simp [base64URLDecode, List.filter_append]

end GoLogin

namespace GoLogin

theorem storeMembers_nil (p : Payload) : storeMembers p [] = some p := rfl

/-- What `verifyJWT` makes of a correctly signed token whose claims segment
decodes to a JSON object. -/
theorem verifyJWTWith_signed_object (key : List Nat) (now : Int) (h p j : List Nat)
    (ms : List (List Nat × JSON)) (hh : dot ∉ h) (hp : dot ∉ p)
    (hd : base64URLDecode p = some j) (hj : scanJSON j = some (.obj ms)) :
    verifyJWTWith key now (h ++ dot :: p ++ dot :: createSignatureWith key h p) =
      match storeMembers zeroPayload ms with
      | none => .error (.payloadParse .mistyped)
      | some payload => if unix now > payload.Exp then .error .expired else .ok payload := by
  rw [verifyJWTWith_signed key now h p hh hp, hd]
  simp only [unmarshalPayload, hj]
  cases storeMembers zeroPayload ms <;> rfl

/-- C11, counterexample: three tokens with a correct signature. The claims
`{}` lack every field: at second 1700000000 the token is reported as
expired, and at second 0 the payload of zero values is returned. The claims
with `username` and `exp` only lack `iat`: the payload is returned with
`Iat = 0`. The claims with `exp` given as `null` are accepted at second 0
with `Exp = 0`. None of them fails with a parse error. -/
theorem C11_schema_validation_counterexample :
    (base64URLDecode (str "e30") = some (str "\x7b\x7d") ∧
      verifyJWT (1700000000 * second)
          (headerEncoded ++ dot :: str "e30" ++ dot :: createSignature headerEncoded (str "e30")) =
        .error .expired ∧
      verifyJWT 0
          (headerEncoded ++ dot :: str "e30" ++ dot :: createSignature headerEncoded (str "e30")) =
        .ok { Username := [], Exp := 0, Iat := 0 }) ∧
    verifyJWT (1700000000 * second)
        (headerEncoded ++ dot ::
          base64URLEncode (str "\x7b\"username\":\"x\",\"exp\":9999999999\x7d") ++
          dot :: createSignature headerEncoded
            (base64URLEncode (str "\x7b\"username\":\"x\",\"exp\":9999999999\x7d"))) =
      .ok { Username := str "x", Exp := 9999999999, Iat := 0 } ∧
    verifyJWT 0
        (headerEncoded ++ dot ::
          base64URLEncode (str "\x7b\"username\":\"x\",\"iat\":1,\"exp\":null\x7d") ++
          dot :: createSignature headerEncoded
            (base64URLEncode (str "\x7b\"username\":\"x\",\"iat\":1,\"exp\":null\x7d"))) =
      .ok { Username := str "x", Exp := 0, Iat := 1 } := by
  have hh : dot ∉ headerEncoded := dot_not_mem_base64URLEncode _
  refine ⟨⟨by decide, ?_, ?_⟩, ?_, ?_⟩
  · rw [verifyJWT, createSignature, verifyJWTWith_signed secretKey _ _ _ hh (by decide)]
    decide
  · rw [verifyJWT, createSignature, verifyJWTWith_signed secretKey _ _ _ hh (by decide)]
    decide
  · rw [verifyJWT, createSignature,
      verifyJWTWith_signed secretKey _ _ _ hh (dot_not_mem_base64URLEncode _)]
    decide
  · rw [verifyJWT, createSignature,
      verifyJWTWith_signed secretKey _ _ _ hh (dot_not_mem_base64URLEncode _)]
    decide

/-- C11 (as amended). There is no schema validation beyond the types of the
fields: for every three-part token whose signature is correct and whose
claims segment base64url-decodes to a JSON object, `verifyJWT` stores the
members into a zero `Payload` and goes on to the expiry check with what
results. A field the object lacks keeps its zero value, a member that is
`null` changes nothing, and a member under a key that names no field is
skipped; only a member of the wrong type for its field, such as a string or
a fraction for `exp`, makes `verifyJWT` fail, with the payload-parse error,
at every clock reading. So the object without members is reported as
expired after second 0 and accepted with zero values up to it. -/
theorem C11_schema_validation (now : Int) (h p j : List Nat) (ms : List (List Nat × JSON))
    (hh : dot ∉ h) (hp : dot ∉ p) (hd : base64URLDecode p = some j)
    (hj : scanJSON j = some (.obj ms)) :
    verifyJWT now (h ++ dot :: p ++ dot :: createSignature h p) =
        (match storeMembers zeroPayload ms with
        | none => .error (.payloadParse .mistyped)
        | some payload => if unix now > payload.Exp then .error .expired else .ok payload) ∧
      (ms = [] → verifyJWT now (h ++ dot :: p ++ dot :: createSignature h p) =
        if unix now > 0 then .error .expired else .ok zeroPayload) ∧
      (∀ (q : Payload) (k : List Nat), storeField q (k, .null) = some q) ∧
      (∀ (q : Payload) (k : List Nat) (v : JSON), foldName k ≠ str "USERNAME" →
        foldName k ≠ str "EXP" → foldName k ≠ str "IAT" → storeField q (k, v) = some q) ∧
      (∀ (q : Payload) (k s : List Nat), foldName k = str "EXP" →
        storeField q (k, .str s) = none) ∧
      (∀ (q : Payload) (k lit : List Nat), foldName k = str "EXP" → parseInt64 lit = none →
        storeField q (k, .num lit) = none) ∧
      (∀ (q : Payload) (k : List Nat) (v : JSON) (rest : List (List Nat × JSON)),
        storeField q (k, v) = none → storeMembers q ((k, v) :: rest) = none) := by
  have e := verifyJWTWith_signed_object secretKey now h p j ms hh hp hd hj
  refine ⟨e, ?_, ?_, ?_, ?_, ?_, ?_⟩
  · intro hms
    rw [verifyJWT, createSignature, e, hms]
    rfl
  · intro q k
    unfold storeField
    split_ifs <;> rfl
  · intro q k v h1 h2 h3
    unfold storeField
    rw [if_neg h1, if_neg h2, if_neg h3]
  · intro q k s hk
    have hne : str "EXP" ≠ str "USERNAME" := by decide
    unfold storeField
    rw [hk, if_neg hne, if_pos rfl]
  · intro q k lit hk hl
    have hne : str "EXP" ≠ str "USERNAME" := by decide
    unfold storeField
    rw [hk, if_neg hne, if_pos rfl]
    simp [hl]
  · intro q k v rest hs
    simp [storeMembers, hs]

/-- C11, witness: the claims `{}` under the header of the issued tokens. -/
theorem C11_schema_validation_witness :
    dot ∉ headerEncoded ∧ dot ∉ str "e30" ∧ base64URLDecode (str "e30") = some (str "\x7b\x7d") ∧
      scanJSON (str "\x7b\x7d") = some (.obj []) ∧
      verifyJWT (1700000000 * second)
          (headerEncoded ++ dot :: str "e30" ++ dot :: createSignature headerEncoded (str "e30")) =
        (match storeMembers zeroPayload [] with
        | none => .error (.payloadParse .mistyped)
        | some payload =>
          if unix (1700000000 * second) > payload.Exp then .error .expired else .ok payload) :=
  ⟨dot_not_mem_base64URLEncode _, by decide, by decide, rfl,
    (C11_schema_validation (1700000000 * second) headerEncoded (str "e30") (str "\x7b\x7d") []
      (dot_not_mem_base64URLEncode _) (by decide) (by decide) rfl).1⟩

/-- C12, counterexample: the second part `e30` followed by a line feed is
not a base64url string, yet the decoder drops the line feed and decodes the
rest; the correctly signed token does not fail with the payload-decoding
error but goes on, here to the expired-token error. -/
theorem C12_encoding_error_counterexample :
    dot ∉ str "a" ∧ dot ∉ str "e30\n" ∧ isRawBase64URL (str "e30\n") = false ∧
      verifyJWT (1700000000 * second)
          (str "a" ++ dot :: str "e30\n" ++ dot :: createSignature (str "a") (str "e30\n")) =
        .error .expired ∧
      verifyJWT (1700000000 * second)
          (str "a" ++ dot :: str "e30\n" ++ dot :: createSignature (str "a") (str "e30\n")) ≠
        .error .payloadDecode := by
  have e : verifyJWT (1700000000 * second)
      (str "a" ++ dot :: str "e30\n" ++ dot :: createSignature (str "a") (str "e30\n")) =
      .error .expired := by
    rw [verifyJWT, createSignature, verifyJWTWith_signed secretKey _ _ _ (by decide) (by decide)]
    decide
  refine ⟨by decide, by decide, by decide, e, ?_⟩
  rw [e]
  decide

/-- C12 (as amended). Encoding errors surface only after the signature gate:
for every pair of strings `part1`, `part2` without `.`, `verifyJWT` applied
to `part1.part2.createSignature(part1, part2)` fails with the
payload-decoding error, at every clock reading, exactly when `part2` with
every `\r` and `\n` dropped is not a valid padding-free base64url string;
then it returns no payload and fails with no signature or expiry error. -/
theorem C12_encoding_error (now : Int) (part1 part2 : List Nat)
    (h1 : dot ∉ part1) (h2 : dot ∉ part2) :
    (verifyJWT now (part1 ++ dot :: part2 ++ dot :: createSignature part1 part2) =
        .error .payloadDecode ↔
      isRawBase64URL (part2.filter (fun c => c ≠ 10 ∧ c ≠ 13)) = false) ∧
    (isRawBase64URL (part2.filter (fun c => c ≠ 10 ∧ c ≠ 13)) = false →
      (∀ payload, verifyJWT now (part1 ++ dot :: part2 ++ dot :: createSignature part1 part2) ≠
        .ok payload) ∧
      verifyJWT now (part1 ++ dot :: part2 ++ dot :: createSignature part1 part2) ≠
        .error .signatureMismatch ∧
      verifyJWT now (part1 ++ dot :: part2 ++ dot :: createSignature part1 part2) ≠
        .error .expired) := by
  have e := verifyJWTWith_signed secretKey now part1 part2 h1 h2
  have hs := base64URLDecode_isSome part2
  have key : verifyJWT now (part1 ++ dot :: part2 ++ dot :: createSignature part1 part2) =
      .error .payloadDecode ↔
      isRawBase64URL (part2.filter (fun c => c ≠ 10 ∧ c ≠ 13)) = false := by
    rw [verifyJWT, createSignature, e, ← hs]
    cases hdec : base64URLDecode part2 with
    | none => simp
    | some j =>
      simp only [Option.isSome_some, Bool.true_eq_false, iff_false]
      cases unmarshalPayload j with
      | error err => simp
      | ok pl =>
        simp only
        split_ifs <;> simp
  refine ⟨key, ?_⟩
  intro hbad
  rw [key.mpr hbad]
  simp

/-- C12, witness: the second part `!`, a byte outside the alphabet. -/
theorem C12_encoding_error_witness :
    dot ∉ str "a" ∧ dot ∉ str "!" ∧
      (verifyJWT 0 (str "a" ++ dot :: str "!" ++ dot :: createSignature (str "a") (str "!")) =
          .error .payloadDecode ↔
        isRawBase64URL ((str "!").filter (fun c => c ≠ 10 ∧ c ≠ 13)) = false) ∧
      isRawBase64URL ((str "!").filter (fun c => c ≠ 10 ∧ c ≠ 13)) = false :=
  ⟨by decide, by decide, (C12_encoding_error 0 (str "a") (str "!") (by decide) (by decide)).1,
    by decide⟩

end GoLogin

namespace GoLogin

/-! ## The verdict as a function of the clock -/

theorem unix_mono (a b : Int) (h : a ≤ b) : unix a ≤ unix b := by
  unfold unix
  exact Int.ediv_le_ediv (by decide) h

/-- The clock enters `verifyJWT` only through the last comparison: a token is
malformed, wrongly signed, undecodable or unparsable at every clock reading
alike, or it carries a payload and is accepted up to `Exp` and expired
after. -/
theorem verifyJWTWith_cases (key : List Nat) (token : List Nat) :
    (∀ now, verifyJWTWith key now token = .error .invalidFormat) ∨
    (∀ now, verifyJWTWith key now token = .error .signatureMismatch) ∨
    (∀ now, verifyJWTWith key now token = .error .payloadDecode) ∨
    (∃ e, ∀ now, verifyJWTWith key now token = .error (.payloadParse e)) ∨
    (∃ h p s j payload, split dot token = [h, p, s] ∧ s = createSignatureWith key h p ∧
      base64URLDecode p = some j ∧ unmarshalPayload j = .ok payload ∧
      ∀ now, verifyJWTWith key now token =
        if unix now > payload.Exp then .error .expired else .ok payload) := by
  by_cases hl : (split dot token).length = 3
  · obtain ⟨h, p, s, hs⟩ := List.length_eq_three.mp hl
    by_cases hsig : s = createSignatureWith key h p
    · cases hd : base64URLDecode p with
      | none =>
        right; right; left
        intro now
        rw [verifyJWTWith_of_split key now token h p s hs, if_neg (not_not.mpr hsig), hd]
      | some j =>
        cases hu : unmarshalPayload j with
        | error e =>
          right; right; right; left
          refine ⟨e, fun now => ?_⟩
          rw [verifyJWTWith_of_split key now token h p s hs, if_neg (not_not.mpr hsig), hd]
          simp only [hu]
        | ok payload =>
          right; right; right; right
          refine ⟨h, p, s, j, payload, hs, hsig, hd, hu, fun now => ?_⟩
          rw [verifyJWTWith_of_split key now token h p s hs, if_neg (not_not.mpr hsig), hd]
          simp only [hu]
    · right; left
      intro now
      exact verifyJWTWith_signatureMismatch key now token h p s hs hsig
  · left
    intro now
    apply (verifyJWTWith_invalidFormat_iff key now token).mpr
    rw [split_length] at hl
    omega

/-- C13. The verdict is monotone in time: for every token and clock readings
`now ≤ later`, a token expired at `now` is expired at `later`; and a token
that fails with the malformed-format or the invalid-signature error at one
clock reading fails with the same error at every other, earlier or
later. -/
theorem C13_monotone_in_time (token : List Nat) (now later : Int) (hle : now ≤ later) :
    (verifyJWT now token = .error .expired → verifyJWT later token = .error .expired) ∧
      (∀ a b, verifyJWT a token = .error .invalidFormat →
        verifyJWT b token = .error .invalidFormat) ∧
      (∀ a b, verifyJWT a token = .error .signatureMismatch →
        verifyJWT b token = .error .signatureMismatch) := by
  unfold verifyJWT
  rcases verifyJWTWith_cases secretKey token with h | h | h | ⟨e, h⟩ |
    ⟨hh, p, s, j, payload, _, _, _, _, h⟩
  · simp [h]
  · simp [h]
  · simp [h]
  · simp [h]
  · refine ⟨?_, ?_, ?_⟩
    · rw [h now, h later]
      have := unix_mono now later hle
      split_ifs <;> first | omega | simp
    · intro a b
      rw [h a, h b]
      split_ifs <;> simp
    · intro a b
      rw [h a, h b]
      split_ifs <;> simp

/-- C13, witness: the token issued for `taro` at second 1700000000 for one
hour, expired at second 1700003601 and still expired a second later. -/
theorem C13_monotone_in_time_witness :
    (1700003601 * second ≤ 1700003602 * second) ∧
      verifyJWT (1700003601 * second)
          (headerEncoded ++ dot ::
            payloadEncoded (1700000000 * second) (str "taro") (3600 * second) ++
            dot :: createSignature headerEncoded
              (payloadEncoded (1700000000 * second) (str "taro") (3600 * second))) =
        .error .expired ∧
      verifyJWT (1700003602 * second)
          (headerEncoded ++ dot ::
            payloadEncoded (1700000000 * second) (str "taro") (3600 * second) ++
            dot :: createSignature headerEncoded
              (payloadEncoded (1700000000 * second) (str "taro") (3600 * second))) =
        .error .expired :=
  have e : verifyJWT (1700003601 * second)
      (headerEncoded ++ dot ::
        payloadEncoded (1700000000 * second) (str "taro") (3600 * second) ++
        dot :: createSignature headerEncoded
          (payloadEncoded (1700000000 * second) (str "taro") (3600 * second))) =
      .error .expired := by
    rw [verifyJWT, createSignature,
      verifyJWTWith_generated secretKey (1700000000 * second) (str "taro") (3600 * second)
        (1700003601 * second) (by decide) (by decide)]
    decide
  ⟨by decide, e,
    (C13_monotone_in_time _ (1700003601 * second) (1700003602 * second) (by decide)).1 e⟩

/-- C17, counterexample: the claims segment of the token issued for `taro`
with a line feed appended, signed as it stands. `verifyJWT` returns the
payload, yet the second part holds a byte outside the alphabet and is not a
valid padding-free base64url string. -/
theorem C17_soundness_counterexample :
    split dot
        (headerEncoded ++ dot ::
          (payloadEncoded (1700000000 * second) (str "taro") (3600 * second) ++ [10]) ++
          dot :: createSignature headerEncoded
            (payloadEncoded (1700000000 * second) (str "taro") (3600 * second) ++ [10])) =
      [headerEncoded, payloadEncoded (1700000000 * second) (str "taro") (3600 * second) ++ [10],
        createSignature headerEncoded
          (payloadEncoded (1700000000 * second) (str "taro") (3600 * second) ++ [10])] ∧
    verifyJWT (1700000000 * second)
        (headerEncoded ++ dot ::
          (payloadEncoded (1700000000 * second) (str "taro") (3600 * second) ++ [10]) ++
          dot :: createSignature headerEncoded
            (payloadEncoded (1700000000 * second) (str "taro") (3600 * second) ++ [10])) =
      .ok { Username := str "taro", Exp := 1700003600, Iat := 1700000000 } ∧
    isRawBase64URL (payloadEncoded (1700000000 * second) (str "taro") (3600 * second) ++ [10]) =
      false := by
  have hh : dot ∉ headerEncoded := dot_not_mem_base64URLEncode _
  have hp : dot ∉ payloadEncoded (1700000000 * second) (str "taro") (3600 * second) ++ [10] := by
    intro hm
    rcases List.mem_append.mp hm with hm | hm
    · exact dot_not_mem_base64URLEncode _ hm
    · exact absurd hm (by decide)
  refine ⟨split_three dot _ _ _ hh hp (dot_not_mem_createSignatureWith _ _ _), ?_, ?_⟩
  · rw [verifyJWT, createSignature, verifyJWTWith_signed secretKey _ _ _ hh hp,
      base64URLDecode_append_newline, base64URLDecode_payloadEncoded]
    simp only
    rw [unmarshalPayload_marshalPayload _ (by decide) (by decide)]
    decide
  · simp [isRawBase64URL, isB64Char, List.all_append]
    intro _
    decide

/-- C17 (as amended). Soundness of acceptance: for every token and clock
reading, if `verifyJWT` returns a payload `p` without error, then the token
splits on `.` into exactly three parts, the third part equals
`createSignature(part1, part2)` under the secret key, `part2` with every
`\r` and `\n` dropped is a valid padding-free base64url string, the bytes
that `part2` decodes to parse as JSON into `p`, and the second of the clock
reading is at most `p.Exp`. -/
theorem C17_soundness (token : List Nat) (now : Int) (p : Payload)
    (hv : verifyJWT now token = .ok p) :
    ∃ part1 part2 part3 j, split dot token = [part1, part2, part3] ∧
      part3 = createSignature part1 part2 ∧
      isRawBase64URL (part2.filter (fun c => c ≠ 10 ∧ c ≠ 13)) = true ∧
      base64URLDecode part2 = some j ∧ unmarshalPayload j = .ok p ∧ unix now ≤ p.Exp := by
  unfold verifyJWT at hv
  rcases verifyJWTWith_cases secretKey token with h | h | h | ⟨e, h⟩ |
    ⟨hh, seg, s, j, payload, hs, hsig, hd, hu, h⟩
  · rw [h] at hv; cases hv
  · rw [h] at hv; cases hv
  · rw [h] at hv; cases hv
  · rw [h] at hv; cases hv
  · rw [h] at hv
    have hraw : isRawBase64URL (seg.filter (fun c => c ≠ 10 ∧ c ≠ 13)) = true := by
      rw [← base64URLDecode_isSome, hd]; rfl
    by_cases hexp : unix now > payload.Exp
    · rw [if_pos hexp] at hv; cases hv
    · rw [if_neg hexp] at hv
      cases hv
      exact ⟨hh, seg, s, j, hs, hsig, hraw, hd, hu, by omega⟩

/-- C17, witness: the token issued for `taro` at second 1700000000 for one
hour, verified in the second of issuance. -/
theorem C17_soundness_witness :
    verifyJWT (1700000000 * second)
        (headerEncoded ++ dot ::
          payloadEncoded (1700000000 * second) (str "taro") (3600 * second) ++
          dot :: createSignature headerEncoded
            (payloadEncoded (1700000000 * second) (str "taro") (3600 * second))) =
      .ok { Username := str "taro", Exp := 1700003600, Iat := 1700000000 } ∧
    ∃ part1 part2 part3 j,
      split dot (headerEncoded ++ dot ::
          payloadEncoded (1700000000 * second) (str "taro") (3600 * second) ++
          dot :: createSignature headerEncoded
            (payloadEncoded (1700000000 * second) (str "taro") (3600 * second))) =
        [part1, part2, part3] ∧
      part3 = createSignature part1 part2 ∧
      isRawBase64URL (part2.filter (fun c => c ≠ 10 ∧ c ≠ 13)) = true ∧
      base64URLDecode part2 = some j ∧
      unmarshalPayload j = .ok { Username := str "taro", Exp := 1700003600, Iat := 1700000000 } ∧
      unix (1700000000 * second) ≤ 1700003600 :=
  have e : verifyJWT (1700000000 * second)
      (headerEncoded ++ dot ::
        payloadEncoded (1700000000 * second) (str "taro") (3600 * second) ++
        dot :: createSignature headerEncoded
          (payloadEncoded (1700000000 * second) (str "taro") (3600 * second))) =
      .ok { Username := str "taro", Exp := 1700003600, Iat := 1700000000 } := by
    rw [verifyJWT, createSignature,
      verifyJWTWith_generated secretKey (1700000000 * second) (str "taro") (3600 * second)
        (1700000000 * second) (by decide) (by decide)]
    decide
  ⟨e, C17_soundness _ (1700000000 * second) _ e⟩

end GoLogin

namespace GoLogin

/-! ## The `Authorization` header -/

theorem space_not_mem_base64URLEncode (bs : List Nat) : 32 ∉ base64URLEncode bs := by
  intro h
  have := base64URLEncode_alphabet bs 32 h
  omega

theorem space_not_mem_token (key : List Nat) (now : Int) (s : List Nat) (d : Int) :
    32 ∉ headerEncoded ++ dot :: payloadEncoded now s d ++
      dot :: createSignatureWith key headerEncoded (payloadEncoded now s d) := by
  intro hm
  rcases List.mem_append.mp hm with hm | hm
  · rcases List.mem_append.mp hm with hm | hm
    · exact space_not_mem_base64URLEncode _ hm
    · rcases List.mem_cons.mp hm with hm | hm
      · exact absurd hm (by decide)
      · exact space_not_mem_base64URLEncode _ hm
  · rcases List.mem_cons.mp hm with hm | hm
    · exact absurd hm (by decide)
    · exact space_not_mem_base64URLEncode _ hm

theorem extractToken_ok_iff (authHeader token : List Nat) :
    JWTServer.extractToken authHeader = .ok token ↔
      split 32 authHeader = [str "Bearer", token] := by
  unfold JWTServer.extractToken
  by_cases he : authHeader = []
  · subst he
    simp [split]
  · rw [if_neg he]
    constructor
    · intro h
      split at h
      · rename_i scheme tok hs
        by_cases hsch : scheme = str "Bearer"
        · rw [if_neg (not_not.mpr hsch)] at h
          cases h
          rw [hs, hsch]
        · rw [if_pos hsch] at h
          cases h
      · cases h
    · intro h
      rw [h]
      simp

theorem extractToken_bearer (token : List Nat) (h : 32 ∉ token) :
    JWTServer.extractToken (str "Bearer " ++ token) = .ok token := by
  apply (extractToken_ok_iff _ _).mpr
  have hb : str "Bearer " = str "Bearer" ++ [32] := by decide
  rw [hb, List.append_assoc, List.singleton_append,
    split_append 32 (str "Bearer") token (by decide), split_of_not_mem 32 token h]

/-- C15. Bearer transport: for every token that `generateJWT` of the server
returns, `extractToken` on the header value `Bearer ` followed by the token
returns exactly the token and no error, an issued token holding no space;
and for every header value `extractToken` succeeds exactly when the value
splits on a single space into two parts of which the first is `Bearer`, so
it fails for an empty header, for another scheme and for every value with no
space or with more than one. -/
theorem C15_bearer_transport (now : Int) (s : List Nat) :
    (∃ token, JWTServer.generateJWT now s = .ok token ∧ 32 ∉ token ∧
      JWTServer.extractToken (str "Bearer " ++ token) = .ok token) ∧
    (∀ authHeader token, JWTServer.extractToken authHeader = .ok token ↔
      split 32 authHeader = [str "Bearer", token]) ∧
    JWTServer.extractToken [] = .error .missing ∧
    (∀ authHeader scheme token, split 32 authHeader = [scheme, token] →
      scheme ≠ str "Bearer" → JWTServer.extractToken authHeader = .error .invalidFormat) ∧
    (∀ authHeader, authHeader.count 32 ≠ 1 →
      ∃ e, JWTServer.extractToken authHeader = .error e) := by
  refine ⟨⟨_, generateJWTWith_eq secretKey now s JWTServer.tokenExpiration,
    space_not_mem_token secretKey now s _,
    extractToken_bearer _ (space_not_mem_token secretKey now s _)⟩,
    extractToken_ok_iff, rfl, ?_, ?_⟩
  · intro authHeader scheme token hs hne
    have hnil : authHeader ≠ [] := by
      intro e
      rw [e] at hs
      simp [split] at hs
    unfold JWTServer.extractToken
    rw [if_neg hnil, hs]
    simp [hne]
  · intro authHeader hc
    cases hr : JWTServer.extractToken authHeader with
    | error e => exact ⟨e, rfl⟩
    | ok token =>
      have hs := (extractToken_ok_iff _ _).mp hr
      have hl := split_length 32 authHeader
      rw [hs] at hl
      simp only [List.length_cons, List.length_nil] at hl
      omega

/-! ## The session store -/

/-- C16. Session lifetime: a session that `Create` makes for a username,
with `now` the clock reading of its `ExpiresAt` line, has
`ExpiresAt = now + 24 h` and is returned by `Get` under its id, with that
username and the store unchanged, at every clock reading not after
`now + 24 h`, and as expired after. For every store, id and clock reading,
`Get` returns the
not-found error and leaves the store unchanged when there is no entry; and
when there is one and the clock is after its `ExpiresAt`, `Get` returns the
expired error and removes that entry and no other, so that a second `Get`
of the id reports not found. -/
theorem C16_session_lifetime :
    (∀ (s : SessionStore) (random username : List Nat) (created now : Int),
      ∃ session, (s.Create (some random) username created now).2 = .ok session ∧
        session.Username = username ∧ session.ExpiresAt = now + 24 * (3600 * second) ∧
        (∀ t, t ≤ now + 24 * (3600 * second) →
          (s.Create (some random) username created now).1.Get session.ID t =
            ((s.Create (some random) username created now).1, .ok session)) ∧
        ∀ t, now + 24 * (3600 * second) < t →
          ((s.Create (some random) username created now).1.Get session.ID t).2 =
            .error .expired) ∧
    (∀ (s : SessionStore) (id : List Nat) (now : Int), s.sessions id = none →
      s.Get id now = (s, .error .notFound)) ∧
    (∀ (s : SessionStore) (id : List Nat) (now : Int) (session : Session),
      s.sessions id = some session → now > session.ExpiresAt →
        (s.Get id now).2 = .error .expired ∧
        (s.Get id now).1.sessions id = none ∧
        (∀ other, other ≠ id → (s.Get id now).1.sessions other = s.sessions other) ∧
        ∀ t, ((s.Get id now).1.Get id t).2 = .error .notFound) := by
  refine ⟨?_, ?_, ?_⟩
  · intro s random username created now
    refine ⟨Session.mk (base64URLEncodePadded random) username created (now + sessionLifetime),
      rfl, rfl, rfl, ?_, ?_⟩
    · intro t ht
      have hnot : ¬ t > now + sessionLifetime := by
        unfold sessionLifetime
        omega
      simp [SessionStore.Create, generateSessionID, SessionStore.Get, hnot]
    · intro t ht
      have hexp : t > now + sessionLifetime := by
        unfold sessionLifetime
        omega
      simp [SessionStore.Create, generateSessionID, SessionStore.Get, hexp]
  · intro s id now h
    simp [SessionStore.Get, h]
  · intro s id now session h hexp
    have e : s.Get id now = (s.Delete id, .error .expired) := by
      simp [SessionStore.Get, h, hexp]
    rw [e]
    refine ⟨rfl, by simp [SessionStore.Delete], ?_, ?_⟩
    · intro other hne
      simp [SessionStore.Delete, hne]
    · intro t
      simp [SessionStore.Get, SessionStore.Delete]

/-! ## Logout -/

/-- C18, at the failing input: a `POST` to `HandleLogout` with the cookie
`session_id=abc`. The session is deleted, then the slice `cookie.Value[:16]`
of a value of three bytes is out of range and the handler panics: it writes
no response. The same holds for every value shorter than 16 bytes, and the
response 200 is written exactly for the values of at least 16 bytes. -/
theorem C18_logout_short_cookie :
    slicePrefix (str "abc") 16 = none ∧
      (HandleLogout NewSessionStore (str "POST") (some (str "abc"))).2 = .panicked ∧
      (∀ (sessions : SessionStore) (value : List Nat),
        (HandleLogout sessions (str "POST") (some value)).1.sessions value = none ∧
        (HandleLogout sessions (str "POST") (some value)).2 =
          if 16 ≤ value.length then
            .response 200 true (str "ログアウトしました") true
          else .panicked) := by
  refine ⟨by decide, by decide, ?_⟩
  intro sessions value
  have hm : ¬ (str "POST" ≠ str "POST") := not_not.mpr rfl
  unfold HandleLogout
  rw [if_neg hm]
  simp only [slicePrefix]
  by_cases hl : 16 ≤ value.length
  · simp [hl, SessionStore.Delete]
  · simp [hl, SessionStore.Delete]

end GoLogin
